import Mathlib

/-!
# Verification of the hillview EXIF/JPEG metadata engine

Shallow embedding of `src/frontend/src-tauri/src/photo_exif.rs`:
the EXIF/TIFF segment encoder (`ExifBuilder` / `create_exif_segment_structured`),
the metadata validator (`validate_photo_metadata`, `validate_orientation_code`)
and the decoder (`read_photo_exif`).

Modelling conventions:
* Rust `f64` fields are modelled as `ℚ`.  All float operations appearing in the
  source (`abs`, `floor`, comparisons, `clamp`, `%`, `as u32` casts, `+`, `-`,
  `*`, `/`) are exact on the rational inputs used by the theorems and
  witnesses below, so the rational model agrees with the IEEE semantics there.
  Rust's `%` on floats is the truncated remainder (sign of the dividend) and
  `as u32` is the saturating truncation; both are modelled explicitly.
* Rust `String` values are modelled as their UTF-8 byte lists (`List ℕ`,
  each entry `< 256`).
* Bytes of the produced EXIF segment are `ℕ` values `< 256`, written with an
  explicit `% 256` where the source writes little-endian machine integers.
-/

set_option maxRecDepth 100000

namespace Hillview

/-! ## Little-endian byte helpers -/

/-- Little-endian bytes of a `u16` (`to_le_bytes`). -/
def u16le (n : ℕ) : List ℕ := [n % 256, n / 256 % 256]

/-- Little-endian bytes of a `u32` (`to_le_bytes`). -/
def u32le (n : ℕ) : List ℕ := [n % 256, n / 256 % 256, n / 65536 % 256, n / 16777216 % 256]

/-- Read a little-endian `u16` from two bytes. -/
def fromLE2 (l : List ℕ) : ℕ := l.getD 0 0 + 256 * l.getD 1 0

/-- Read a little-endian `u32` from four bytes. -/
def fromLE4 (l : List ℕ) : ℕ :=
  l.getD 0 0 + 256 * l.getD 1 0 + 65536 * l.getD 2 0 + 16777216 * l.getD 3 0

theorem fromLE2_u16le (n : ℕ) (h : n < 65536) : fromLE2 (u16le n) = n := by
  simp [fromLE2, u16le]
  omega

theorem fromLE4_u32le (n : ℕ) (h : n < 4294967296) : fromLE4 (u32le n) = n := by
  simp [fromLE4, u32le]
  omega

@[simp] theorem u16le_length (n : ℕ) : (u16le n).length = 2 := rfl

@[simp] theorem u32le_length (n : ℕ) : (u32le n).length = 4 := rfl

/-! ## Rational helpers for `f64` semantics -/

/-- Truncation toward zero, the rounding used by Rust's `%` on floats and by
float-to-integer `as` casts. -/
def qtrunc (q : ℚ) : ℤ := if q < 0 then -⌊-q⌋ else ⌊q⌋

/-- Rust `%` on `f64` values: remainder of the truncated division (exact for
finite floats, sign of the dividend). -/
def rustRem (x y : ℚ) : ℚ := x - y * (qtrunc (x / y) : ℚ)

/-- Rust `as u32` cast from `f64`: truncate toward zero and saturate
to `[0, 2^32-1]`. -/
def toU32 (q : ℚ) : ℕ := (max 0 (min (qtrunc q) 4294967295)).toNat

/-- Rust `f64::clamp`. -/
def qclamp (x lo hi : ℚ) : ℚ := min (max x lo) hi

theorem qtrunc_of_nonneg {q : ℚ} (h : 0 ≤ q) : qtrunc q = ⌊q⌋ := by
  unfold qtrunc
  rw [if_neg (not_lt.2 h)]

theorem qtrunc_neg (q : ℚ) : qtrunc (-q) = -qtrunc q := by
  unfold qtrunc
  rcases lt_trichotomy q 0 with h | h | h
  · rw [if_neg (by linarith), if_pos h, neg_neg]
  · simp [h]
  · rw [if_pos (by linarith), if_neg (by linarith), neg_neg]

theorem toU32_eq_floor {q : ℚ} (h0 : 0 ≤ q) (h1 : q < 4294967296) :
    (toU32 q : ℤ) = ⌊q⌋ := by
  have hfl : (0 : ℤ) ≤ ⌊q⌋ := Int.floor_nonneg.2 h0
  have hfu : ⌊q⌋ ≤ 4294967295 := by
    have : ⌊q⌋ < 4294967296 := Int.floor_lt.2 (by exact_mod_cast h1)
    omega
  unfold toU32
  rw [qtrunc_of_nonneg h0]
  omega

theorem toU32_lt (q : ℚ) : toU32 q < 4294967296 := by
  unfold toU32
  omega

/-- For `y > 0` and `x ≥ 0` the Rust float remainder agrees with the
mathematical (floor) remainder and lands in `[0, y)`. -/
theorem rustRem_nonneg_lt {x y : ℚ} (hx : 0 ≤ x) (hy : 0 < y) :
    0 ≤ rustRem x y ∧ rustRem x y < y := by
  have hdiv : 0 ≤ x / y := div_nonneg hx hy.le
  unfold rustRem
  rw [qtrunc_of_nonneg hdiv]
  constructor
  · have h1 : (⌊x / y⌋ : ℚ) ≤ x / y := Int.floor_le _
    have := mul_le_mul_of_nonneg_left h1 hy.le
    rw [mul_div_cancel₀ _ hy.ne'] at this
    linarith
  · have h2 : x / y < ⌊x / y⌋ + 1 := Int.lt_floor_add_one _
    have := mul_lt_mul_of_pos_left h2 hy
    rw [mul_div_cancel₀ _ hy.ne'] at this
    linarith

theorem rustRem_neg_arg (x y : ℚ) : rustRem (-x) y = -rustRem x y := by
  unfold rustRem
  rw [neg_div, qtrunc_neg]
  push_cast
  ring

/-- For `y > 0` the Rust float remainder always lies in `(-y, y)`. -/
theorem rustRem_abs_lt {x y : ℚ} (hy : 0 < y) : -y < rustRem x y ∧ rustRem x y < y := by
  rcases le_or_lt 0 x with hx | hx
  · obtain ⟨h0, h1⟩ := rustRem_nonneg_lt hx hy
    exact ⟨by linarith, h1⟩
  · have hx' : 0 ≤ -x := by linarith
    obtain ⟨h0, h1⟩ := rustRem_nonneg_lt hx' hy
    rw [show x = -(-x) by ring, rustRem_neg_arg]
    constructor <;> linarith

/-! ## The `PhotoMetadata` record (`src/frontend/src-tauri/src/types.rs`) -/

/-- `PhotoMetadata` with `f64` fields as `ℚ` and `String` fields as
UTF-8 byte lists. -/
structure PhotoMetadata where
  latitude : ℚ
  longitude : ℚ
  altitude : Option ℚ
  bearing : Option ℚ
  captured_at : ℤ
  accuracy : ℚ
  location_source : List ℕ
  bearing_source : List ℕ
  orientation_code : Option ℕ
  deriving Repr, DecidableEq

/-! ## The metadata validator (`validate_photo_metadata`) -/

/-- `validate_orientation_code`: keep 1/3/6/8, anything else (including
`None`) becomes 1. -/
def validateOrientationCode (code : Option ℕ) : ℕ :=
  match code with
  | some 1 => 1
  | some 3 => 3
  | some 6 => 6
  | some 8 => 8
  | some _ => 1
  | none => 1

/-- `validate_photo_metadata`: normalize orientation, clamp latitude, wrap
longitude with Rust's `%`, wrap bearing, clamp accuracy; altitude and
`captured_at` are only warned about, never changed. -/
def validatePhotoMetadata (m : PhotoMetadata) : PhotoMetadata :=
  let m1 := { m with orientation_code := some (validateOrientationCode m.orientation_code) }
  let m2 := if m1.latitude < -90 ∨ m1.latitude > 90 then
      { m1 with latitude := qclamp m1.latitude (-90) 90 } else m1
  let m3 := if m2.longitude < -180 ∨ m2.longitude > 180 then
      { m2 with longitude := rustRem (m2.longitude + 180) 360 - 180 } else m2
  let m4 := match m3.bearing with
    | some b => if b < 0 ∨ b ≥ 360 then
        { m3 with bearing := some (rustRem (rustRem b 360 + 360) 360) } else m3
    | none => m3
  let m5 := if m4.accuracy < 0 then { m4 with accuracy := 0 } else m4
  m5

/-! ## Claim C2: longitude wrapping -/

/-- Example metadata used for concrete evaluations. -/
def mkMeta (lat lon : ℚ) (alt bear : Option ℚ) (ts : ℤ) (acc : ℚ)
    (ls bs : List ℕ) (oc : Option ℕ) : PhotoMetadata :=
  ⟨lat, lon, alt, bear, ts, acc, ls, bs, oc⟩

/-- C2 (code bug): at longitude `-181` the validator's wrap
`((lon + 180.0) % 360.0) - 180.0` uses Rust's truncated `%`, which returns
`-1` for `-1 % 360`; the "normalized" longitude is `-181` again, outside
`[-180, 180]`.  The claim (and the validator's own log message) says the
result lands in `[-180, 180]`. -/
theorem C2_longitude_wrap_bug :
    (validatePhotoMetadata (mkMeta 0 (-181) none none 1700000000 5 [] [] none)).longitude = -181 ∧
    ¬ (-180 ≤ (validatePhotoMetadata
        (mkMeta 0 (-181) none none 1700000000 5 [] [] none)).longitude ∧
       (validatePhotoMetadata
        (mkMeta 0 (-181) none none 1700000000 5 [] [] none)).longitude ≤ 180) := by
  have h : (validatePhotoMetadata
      (mkMeta 0 (-181) none none 1700000000 5 [] [] none)).longitude = -181 := by
    simp only [validatePhotoMetadata, mkMeta, rustRem, qtrunc]
    norm_num
  refine ⟨h, ?_⟩
  rw [h]
  norm_num

/-! ## Claims C7 and C8: bearing wrapping, idempotence -/

theorem validateOrientationCode_valid (c : Option ℕ) :
    validateOrientationCode (some (validateOrientationCode c)) = validateOrientationCode c := by
  rcases c with _ | v
  · rfl
  · rcases v with _ | _ | _ | _ | _ | _ | _ | _ | _ | v <;> rfl

/-- The latitude normalization always lands in `[-90, 90]`. -/
theorem normLat_bounds (x : ℚ) :
    -90 ≤ (if x < -90 ∨ x > 90 then qclamp x (-90) 90 else x) ∧
    (if x < -90 ∨ x > 90 then qclamp x (-90) 90 else x) ≤ 90 := by
  unfold qclamp
  split
  · exact ⟨le_min (le_max_right _ _) (by norm_num), min_le_right _ _⟩
  · rename_i h
    push_neg at h
    exact ⟨by linarith [h.1], by linarith [h.2]⟩

/-- Rust `%` is the identity on values in `(-360, 0] ∪ [0, 360)` when the
modulus is 360; used to show the longitude wrap is a fixed point even on the
out-of-range values it can produce. -/
theorem rustRem_eq_self {v : ℚ} (h1 : -360 < v) (h2 : v < 360) : rustRem v 360 = v := by
  have h360 : (0 : ℚ) < 360 := by norm_num
  have hq1 : -1 < v / 360 := by
    rw [lt_div_iff₀ h360]
    linarith
  have hq2 : v / 360 < 1 := by
    rw [div_lt_iff₀ h360]
    linarith
  have htr : qtrunc (v / 360) = 0 := by
    unfold qtrunc
    split
    · rename_i hneg
      have hz : ⌊-(v / 360)⌋ = 0 :=
        Int.floor_eq_zero_iff.2 ⟨by linarith, by linarith⟩
      rw [hz]
      rfl
    · rename_i hpos
      push_neg at hpos
      exact Int.floor_eq_zero_iff.2 ⟨hpos, hq2⟩
  unfold rustRem
  rw [htr]
  push_cast
  ring

/-- Field-wise characterization of `validate_photo_metadata`: the sequential
record updates of the source touch pairwise disjoint fields. -/
theorem validate_eq (lat lon : ℚ) (alt bear : Option ℚ) (ts : ℤ) (acc : ℚ)
    (ls bs : List ℕ) (oc : Option ℕ) :
    validatePhotoMetadata ⟨lat, lon, alt, bear, ts, acc, ls, bs, oc⟩ =
      ⟨(if lat < -90 ∨ lat > 90 then qclamp lat (-90) 90 else lat),
       (if lon < -180 ∨ lon > 180 then rustRem (lon + 180) 360 - 180 else lon),
       alt,
       (match bear with
        | some b => if b < 0 ∨ b ≥ 360 then some (rustRem (rustRem b 360 + 360) 360)
                    else some b
        | none => none),
       ts,
       (if acc < 0 then 0 else acc),
       ls, bs,
       some (validateOrientationCode oc)⟩ := by
  rcases bear with _ | b
  · by_cases h1 : lat < -90 ∨ lat > 90 <;>
    by_cases h2 : lon < -180 ∨ lon > 180 <;>
    by_cases h3 : acc < 0 <;>
    simp [validatePhotoMetadata, h1, h2, h3]
  · by_cases h1 : lat < -90 ∨ lat > 90 <;>
    by_cases h2 : lon < -180 ∨ lon > 180 <;>
    by_cases h3 : acc < 0 <;>
    by_cases h4 : b < 0 ∨ b ≥ 360 <;>
    simp [validatePhotoMetadata, h1, h2, h3, h4]

/-- C7: for a bearing outside `[0, 360)` the validator stores
`((b % 360.0) + 360.0) % 360.0`, which lies in `[0, 360)`. -/
theorem C7_bearing_wrap (m : PhotoMetadata) (b : ℚ)
    (hb : m.bearing = some b) (hout : b < 0 ∨ b ≥ 360) :
    (validatePhotoMetadata m).bearing = some (rustRem (rustRem b 360 + 360) 360) ∧
    0 ≤ rustRem (rustRem b 360 + 360) 360 ∧
    rustRem (rustRem b 360 + 360) 360 < 360 := by
  have h360 : (0 : ℚ) < 360 := by norm_num
  obtain ⟨hlo, hhi⟩ := rustRem_abs_lt (x := b) h360
  have hpos : 0 ≤ rustRem b 360 + 360 := by linarith
  obtain ⟨h0, h1⟩ := rustRem_nonneg_lt hpos h360
  refine ⟨?_, h0, h1⟩
  obtain ⟨lat, lon, alt, bear, ts, acc, ls, bs, oc⟩ := m
  have hb' : bear = some b := hb
  subst hb'
  rw [validate_eq]
  dsimp only
  rw [if_pos hout]

/-- Witness for C7 at the documented scenario `bearing = Some(-10.0)`:
validation yields `Some(350.0)`. -/
theorem C7_bearing_wrap_witness :
    (validatePhotoMetadata (mkMeta 1 2 none (some (-10)) 1700000000 5 [] [] (some 1))).bearing
      = some 350 := by
  have h := C7_bearing_wrap (mkMeta 1 2 none (some (-10)) 1700000000 5 [] [] (some 1))
    (-10) rfl (Or.inl (by norm_num))
  rw [h.1]
  congr 1
  simp only [rustRem, qtrunc]
  norm_num

/-- C8: `validate_photo_metadata` is idempotent: every field of the output is
a fixed point of the corresponding normalization. -/
theorem C8_validate_idempotent (m : PhotoMetadata) :
    validatePhotoMetadata (validatePhotoMetadata m) = validatePhotoMetadata m := by
  obtain ⟨lat, lon, alt, bear, ts, acc, ls, bs, oc⟩ := m
  rw [validate_eq, validate_eq, PhotoMetadata.mk.injEq]
  dsimp only
  refine ⟨?_, ?_, rfl, ?_, rfl, ?_, rfl, rfl, ?_⟩
  · -- latitude: the clamped value is in range, so the second pass is a no-op
    obtain ⟨h1, h2⟩ := normLat_bounds lat
    rw [if_neg]
    push_neg
    exact ⟨by linarith, by linarith⟩
  · -- longitude: either in range (no-op) or a fixed point of the wrap
    set r := if lon < -180 ∨ lon > 180 then rustRem (lon + 180) 360 - 180 else lon with hr
    by_cases hout : r < -180 ∨ r > 180
    · rw [if_pos hout]
      have hrem : -360 < rustRem (lon + 180) 360 ∧ rustRem (lon + 180) 360 < 360 :=
        rustRem_abs_lt (by norm_num)
      have hrval : r = rustRem (lon + 180) 360 - 180 := by
        by_cases hc : lon < -180 ∨ lon > 180
        · rw [hr, if_pos hc]
        · exfalso
          have hrl : r = lon := by rw [hr, if_neg hc]
          push_neg at hc
          rcases hout with h | h <;> rw [hrl] at h <;> linarith [hc.1, hc.2]
      have hb : -360 < r + 180 ∧ r + 180 < 360 := by
        constructor <;> [linarith [hrem.1]; linarith [hrem.2]]
      rw [rustRem_eq_self hb.1 hb.2]
      linarith
    · rw [if_neg hout]
  · -- bearing: the wrapped value is in `[0, 360)`, so the second pass is a no-op
    rcases bear with _ | b
    · rfl
    · by_cases hout : b < 0 ∨ b ≥ 360
      · simp only [hout, if_true]
        have h360 : (0 : ℚ) < 360 := by norm_num
        obtain ⟨hlo, hhi⟩ := rustRem_abs_lt (x := b) h360
        obtain ⟨h0, h1⟩ := rustRem_nonneg_lt (x := rustRem b 360 + 360) (by linarith) h360
        rw [if_neg]
        push_neg
        exact ⟨h0, by linarith⟩
      · simp only [hout, if_false]
  · -- accuracy: `max(0, acc)` is nonnegative
    by_cases h3 : acc < 0 <;> simp [h3]
  · -- orientation: valid codes map to themselves
    rw [validateOrientationCode_valid]

/-! ## Provenance JSON (`ProvenanceData`, serde_json)

Modelled from the spec: the provenance record is "serialized as compact
JSON"; `serde_json` itself is an external dependency, so its compact object
serialization of `\x7b"location_source":A,"bearing_source":B\x7d` and its
strict parse of that shape are reproduced here byte-for-byte on the UTF-8
byte lists of the two strings. -/

/-- Lowercase hexadecimal digit, as emitted by serde_json for `\u00XX`
control-character escapes. -/
def hexDig (d : ℕ) : ℕ := if d < 10 then 48 + d else 87 + d

/-- serde_json string escaping of one byte: `"` and `\` get a backslash,
the short control escapes `\b \t \n \f \r` are used where they exist, other
control bytes become `\u00XX`, everything else passes through. -/
def escByte (c : ℕ) : List ℕ :=
  if c = 34 then [92, 34]
  else if c = 92 then [92, 92]
  else if c = 8 then [92, 98]
  else if c = 9 then [92, 116]
  else if c = 10 then [92, 110]
  else if c = 12 then [92, 102]
  else if c = 13 then [92, 114]
  else if c < 32 then [92, 117, 48, 48, hexDig (c / 16), hexDig (c % 16)]
  else [c]

def escBytes : List ℕ → List ℕ
  | [] => []
  | c :: t => escByte c ++ escBytes t

/-- UTF-8 bytes of `\x7b"location_source":"` — the opening of the compact
JSON object. -/
def provLit1 : List ℕ :=
  [123, 34, 108, 111, 99, 97, 116, 105, 111, 110, 95, 115, 111, 117, 114, 99, 101, 34, 58, 34]

/-- UTF-8 bytes of `,"bearing_source":"` — between the first string value's
closing quote and the second value's opening quote. -/
def provLit2 : List ℕ :=
  [44, 34, 98, 101, 97, 114, 105, 110, 103, 95, 115, 111, 117, 114, 99, 101, 34, 58, 34]

/-- `serde_json::to_string(&ProvenanceData \x7b location_source, bearing_source \x7d)`
on the UTF-8 bytes of the two strings. -/
def jsonProvenance (ls bs : List ℕ) : List ℕ :=
  provLit1 ++ escBytes ls ++ [34] ++ provLit2 ++ escBytes bs ++ [34, 125]

/-- State of the JSON string-literal scanner: plain text, after a `\`, or
inside the four hex digits of a `\uXXXX` escape. -/
inductive StrMode where
  | plain
  | esc
  | hex (k : ℕ) (acc : ℕ)

def unescSimple (c : ℕ) : Option ℕ :=
  if c = 34 then some 34
  else if c = 92 then some 92
  else if c = 98 then some 8
  else if c = 116 then some 9
  else if c = 110 then some 10
  else if c = 102 then some 12
  else if c = 114 then some 13
  else none

def hexVal (c : ℕ) : Option ℕ :=
  if 48 ≤ c ∧ c ≤ 57 then some (c - 48)
  else if 97 ≤ c ∧ c ≤ 102 then some (c - 87)
  else none

/-- Scan a JSON string literal up to its closing unescaped quote, returning
the unescaped content and the rest of the input. -/
def readStrGo : StrMode → List ℕ → List ℕ → Option (List ℕ × List ℕ)
  | _, _, [] => none
  | .plain, acc, c :: r =>
      if c = 34 then some (acc.reverse, r)
      else if c = 92 then readStrGo .esc acc r
      else readStrGo .plain (c :: acc) r
  | .esc, acc, c :: r =>
      if c = 117 then readStrGo (.hex 4 0) acc r
      else
        match unescSimple c with
        | some b => readStrGo .plain (b :: acc) r
        | none => none
  | .hex k h, acc, c :: r =>
      match hexVal c with
      | some v =>
          if k ≤ 1 then readStrGo .plain ((16 * h + v) :: acc) r
          else readStrGo (.hex (k - 1) (16 * h + v)) acc r
      | none => none

def readStr (l : List ℕ) : Option (List ℕ × List ℕ) := readStrGo .plain [] l

/-- Strip an expected literal from the front of the input. -/
def stripPre : List ℕ → List ℕ → Option (List ℕ)
  | [], s => some s
  | _ :: _, [] => none
  | p :: pt, c :: ct => if c = p then stripPre pt ct else none

/-- `serde_json::from_str::<ProvenanceData>`: accept exactly the compact
object shape produced by `jsonProvenance` and return the two unescaped
string values. -/
def provParse (s : List ℕ) : Option (List ℕ × List ℕ) :=
  match stripPre provLit1 s with
  | none => none
  | some s1 =>
    match readStr s1 with
    | none => none
    | some (a, s2) =>
      match stripPre provLit2 s2 with
      | none => none
      | some s3 =>
        match readStr s3 with
        | none => none
        | some (b, s4) => if s4 = [125] then some (a, b) else none

/-! ## Timestamp formatting (`chrono`, `"%Y:%m:%d %H:%M:%S"`)

Modelled from the spec: DateTime strings are "derived from `captured_at`
interpreted as UTC" in the format `"YYYY:MM:DD HH:MM:SS"`; `chrono` is an
external dependency, so the proleptic-Gregorian conversion from Unix seconds
is reproduced with the standard civil-from-days algorithm.  (The source's
`unwrap_or_else(Utc::now)` fallback for timestamps outside chrono's ±262000
year range is not modelled; no claim exercises it.) -/

def digitsAux : ℕ → ℕ → List ℕ
  | 0, _ => []
  | fuel + 1, n => if n = 0 then [] else digitsAux fuel (n / 10) ++ [48 + n % 10]

def natDigits (n : ℕ) : List ℕ := if n = 0 then [48] else digitsAux n n

/-- Two-digit zero-padded decimal (`%m`, `%d`, `%H`, `%M`, `%S`). -/
def pad2 (n : ℕ) : List ℕ := [48 + n / 10 % 10, 48 + n % 10]

/-- Four-digit zero-padded decimal, full digits beyond 9999. -/
def pad4 (n : ℕ) : List ℕ :=
  if n < 10000 then [48 + n / 1000 % 10, 48 + n / 100 % 10, 48 + n / 10 % 10, 48 + n % 10]
  else natDigits n

/-- chrono `%Y`: zero-padded to 4 digits, `-` sign for negative years, `+`
sign beyond year 9999. -/
def formatYear (y : ℤ) : List ℕ :=
  if y < 0 then 45 :: pad4 (-y).toNat
  else if y < 10000 then pad4 y.toNat
  else 43 :: pad4 y.toNat

/-- Civil date from days since 1970-01-01 (proleptic Gregorian). -/
def civilFromDays (z : ℤ) : ℤ × ℕ × ℕ :=
  let z' := z + 719468
  let era : ℤ := z'.ediv 146097
  let doe : ℕ := (z' - era * 146097).toNat
  let yoe : ℕ := (doe - doe / 1460 + doe / 36524 - doe / 146096) / 365
  let doy : ℕ := doe - (365 * yoe + yoe / 4 - yoe / 100)
  let mp : ℕ := (5 * doy + 2) / 153
  let d : ℕ := doy - (153 * mp + 2) / 5 + 1
  let mo : ℕ := if mp < 10 then mp + 3 else mp - 9
  (era * 400 + yoe + (if mo ≤ 2 then 1 else 0), mo, d)

/-- `chrono::DateTime::from_timestamp(ts, 0).format("%Y:%m:%d %H:%M:%S")`. -/
def formatTimestamp (ts : ℤ) : List ℕ :=
  let days := ts.ediv 86400
  let sod := (ts.emod 86400).toNat
  let c := civilFromDays days
  formatYear c.1 ++ [58] ++ pad2 c.2.1 ++ [58] ++ pad2 c.2.2 ++ [32] ++
    pad2 (sod / 3600) ++ [58] ++ pad2 (sod % 3600 / 60) ++ [58] ++ pad2 (sod % 60)

/-! ## The EXIF builder (`ExifValue`, `ExifEntry`, `ExifBuilder`) -/

inductive ExifValue where
  | short (v : ℕ)
  | long (v : ℕ)
  | rational (num denom : ℕ)
  | ascii (s : List ℕ)
  | undefined (b : List ℕ)
  | rationals (vs : List (ℕ × ℕ))
  deriving Repr, DecidableEq

structure ExifEntry where
  tag : ℕ
  value : ExifValue
  deriving Repr, DecidableEq

/-- Rust `as u32` applied after `f64::floor`, for the DMS degree fields. -/
def dmsDeg (x : ℚ) : ℕ := toU32 (⌊|x|⌋ : ℤ)

def dmsMin (x : ℚ) : ℕ := toU32 (⌊(|x| - dmsDeg x) * 60⌋ : ℤ)

def dmsSec100 (x : ℚ) : ℕ := toU32 ((|x| - dmsDeg x - dmsMin x / 60) * 3600 * 100)

/-- IFD0 entries pushed by `create_exif_segment_structured`:
`add_orientation` (when present) then `add_timestamps`. -/
def ifd0Entries (m : PhotoMetadata) : List ExifEntry :=
  (match m.orientation_code with
   | some o => [⟨0x0112, .short o⟩]
   | none => []) ++
  [⟨0x0132, .ascii (formatTimestamp m.captured_at)⟩,
   ⟨0x9003, .ascii (formatTimestamp m.captured_at)⟩]

/-- GPS entries pushed by `add_gps_data` and (when present) `add_bearing`. -/
def gpsEntries (m : PhotoMetadata) : List ExifEntry :=
  [⟨0x0000, .undefined [2, 3, 0, 0]⟩,
   ⟨0x0001, .ascii (if m.latitude ≥ 0 then [78] else [83])⟩,
   ⟨0x0002, .rationals [(dmsDeg m.latitude, 1), (dmsMin m.latitude, 1),
                        (dmsSec100 m.latitude, 100)]⟩,
   ⟨0x0003, .ascii (if m.longitude ≥ 0 then [69] else [87])⟩,
   ⟨0x0004, .rationals [(dmsDeg m.longitude, 1), (dmsMin m.longitude, 1),
                        (dmsSec100 m.longitude, 100)]⟩] ++
  (match m.altitude with
   | some a => [⟨0x0005, .short 0⟩, ⟨0x0006, .rational (toU32 (|a| * 1000)) 1000⟩]
   | none => []) ++
  (match m.bearing with
   | some b => [⟨0x0010, .ascii [84]⟩, ⟨0x0011, .rational (toU32 (b * 100)) 100⟩,
                ⟨0x0017, .ascii [84]⟩, ⟨0x0018, .rational (toU32 (b * 100)) 100⟩]
   | none => [])

/-- `add_provenance`: 8-byte `"ASCII\0\0\0"` character-code header followed
by the provenance JSON, truncated to 1000 bytes when longer
(`MAX_COMMENT_SIZE`).  `serde_json::to_string` of two strings never fails,
so the comment is always present. -/
def userComment (m : PhotoMetadata) : Option (List ℕ) :=
  let j := jsonProvenance m.location_source m.bearing_source
  some ([65, 83, 67, 73, 73, 0, 0, 0] ++ (if j.length > 1000 then j.take 1000 else j))

/-- `Vec::sort_by_key(|e| e.tag)` (stable insertion sort). -/
def insertEntry (e : ExifEntry) : List ExifEntry → List ExifEntry
  | [] => [e]
  | h :: t => if e.tag < h.tag then e :: h :: t else h :: insertEntry e t

def sortEntries : List ExifEntry → List ExifEntry
  | [] => []
  | h :: t => insertEntry h (sortEntries t)

/-- `Vec::resize`-style zero padding up to length `n` (no-op when already
at least that long). -/
def padTo (l : List ℕ) (n : ℕ) : List ℕ := l ++ List.replicate (n - l.length) 0

/-- `ExifBuilder::write_ifd_entry`: 12-byte IFD0 directory record.  ASCII
values longer than 3 bytes are truncated to fit the inline 4-byte slot
("For now, truncate to fit in 4 bytes" in the source) while the count field
still claims the full length; other value kinds fall to an 8-byte zero
placeholder. -/
def writeIfdEntry (e : ExifEntry) : List ℕ :=
  u16le e.tag ++
  match e.value with
  | .short v => [3, 0] ++ [1, 0, 0, 0] ++ u16le v ++ [0, 0]
  | .ascii s =>
      [2, 0] ++ u32le (s.length + 1) ++
      (if s.length + 1 ≤ 4 then padTo (s ++ [0]) 4
       else padTo (s.take (min 3 s.length) ++ [0]) 4)
  | _ => List.replicate 8 0

/-- `ExifBuilder::write_gps_entry`: 12-byte GPS directory record plus the
updated running data offset.  `Undefined` is written with type BYTE as in
the source. -/
def writeGpsEntry (e : ExifEntry) (off : ℕ) : List ℕ × ℕ :=
  match e.value with
  | .undefined v =>
      (u16le e.tag ++ [1, 0] ++ u32le v.length ++
        (if v.length ≤ 4 then padTo v 4 else u32le off),
       if v.length ≤ 4 then off else off + v.length)
  | .ascii s =>
      (u16le e.tag ++ [2, 0] ++ u32le (s.length + 1) ++
        (if s.length + 1 ≤ 4 then padTo (s ++ [0]) 4 else u32le off),
       if s.length + 1 ≤ 4 then off else off + (s.length + 1))
  | .short v => (u16le e.tag ++ [3, 0] ++ [1, 0, 0, 0] ++ u16le v ++ [0, 0], off)
  | .rational _ _ => (u16le e.tag ++ [5, 0] ++ [1, 0, 0, 0] ++ u32le off, off + 8)
  | .rationals vs => (u16le e.tag ++ [5, 0] ++ u32le vs.length ++ u32le off, off + 8 * vs.length)
  | .long _ => (u16le e.tag ++ List.replicate 8 0, off)

/-- The GPS directory records in order, threading the running data offset. -/
def writeGpsRecs : List ExifEntry → ℕ → List (List ℕ)
  | [], _ => []
  | e :: t, off => (writeGpsEntry e off).1 :: writeGpsRecs t (writeGpsEntry e off).2

def ratsBytes : List (ℕ × ℕ) → List ℕ
  | [] => []
  | p :: t => u32le p.1 ++ u32le p.2 ++ ratsBytes t

/-- `ExifBuilder::write_gps_data_values`: out-of-line value bytes of one GPS
entry (empty when the value was written inline). -/
def gpsValueBytes (e : ExifEntry) : List ℕ :=
  match e.value with
  | .rational n d => u32le n ++ u32le d
  | .rationals vs => ratsBytes vs
  | .undefined v => if v.length > 4 then v else []
  | .ascii s => if s.length + 1 > 4 then s ++ [0] else []
  | _ => []

/-- `ExifBuilder::calculate_gps_data_size`. -/
def gpsValueSize (e : ExifEntry) : ℕ :=
  match e.value with
  | .rational _ _ => 8
  | .rationals vs => 8 * vs.length
  | .undefined v => if v.length > 4 then v.length else 0
  | .ascii s => if s.length + 1 > 4 then s.length + 1 else 0
  | _ => 0

def calculateGpsDataSize (es : List ExifEntry) : ℕ := (es.map gpsValueSize).sum

def concatL : List (List ℕ) → List ℕ
  | [] => []
  | h :: t => h ++ concatL t

/-- `ExifBuilder::build`: TIFF header, IFD0 (sorted entries, then GPS
pointer, then UserComment), GPS IFD with its data area, then the
out-of-line UserComment bytes. -/
def buildExif (ifd0 gps : List ExifEntry) (uc : Option (List ℕ)) : List ℕ :=
  let ifd0s := sortEntries ifd0
  let gpss := sortEntries gps
  let ifd0Count := ifd0s.length + (if gpss.isEmpty then 0 else 1) +
    (if uc.isSome then 1 else 0)
  let gpsIfdOffset := 8 + (2 + 12 * ifd0Count + 4)
  let gpsSize := if gpss.isEmpty then 0
    else 2 + 12 * gpss.length + 4 + calculateGpsDataSize gpss
  let commentOffset := gpsIfdOffset + gpsSize
  let gpsPtr := if gpss.isEmpty then []
    else u16le 0x8825 ++ [4, 0] ++ [1, 0, 0, 0] ++ u32le gpsIfdOffset
  let ucEntry := match uc with
    | none => []
    | some c => u16le 0x9286 ++ [7, 0] ++ u32le c.length ++
        (if c.length ≤ 4 then padTo c 4 else u32le commentOffset)
  let part1 := [73, 73, 42, 0] ++ u32le 8 ++ u16le ifd0Count ++
    concatL (ifd0s.map writeIfdEntry) ++ gpsPtr ++ ucEntry ++ u32le 0
  let part2 := if gpss.isEmpty then part1 else
    padTo part1 gpsIfdOffset ++ u16le gpss.length ++
      concatL (writeGpsRecs gpss (gpsIfdOffset + 2 + 12 * gpss.length + 4)) ++
      u32le 0 ++ concatL (gpss.map gpsValueBytes)
  match uc with
  | some c => if c.length > 4 then padTo part2 commentOffset ++ c else part2
  | none => part2

/-- `create_exif_segment_structured`. -/
def createExifSegmentStructured (m : PhotoMetadata) : List ℕ :=
  buildExif (ifd0Entries m) (gpsEntries m) (userComment m)

/-! ## The decoder (`read_photo_exif`)

The segment-locating and header-stripping logic (lines 944–964 of the
source) is embedded directly.  The TIFF directory walk is delegated by the
source to the external `exif` crate; it is modelled from the spec here
(§4.4: parse IFD0, follow the GPS-IFD pointer, read each field by tag, with
absent or unreadable individual fields degrading to the documented
defaults). -/

/-- Bounds-checked read of `n` bytes at offset `off`. -/
def readBytesAt (seg : List ℕ) (off n : ℕ) : Option (List ℕ) :=
  if off + n ≤ seg.length then some ((seg.drop off).take n) else none

def readU16at (seg : List ℕ) (off : ℕ) : Option ℕ := (readBytesAt seg off 2).map fromLE2

def readU32at (seg : List ℕ) (off : ℕ) : Option ℕ := (readBytesAt seg off 4).map fromLE4

/-- One 12-byte directory entry as read back from the segment: type, count,
and the 4-byte inline value/offset slot. -/
structure RawField where
  typ : ℕ
  cnt : ℕ
  val4 : List ℕ
  deriving Repr, DecidableEq

/-- Scan `k` directory records starting at `pos` for `tag`. -/
def findFieldAux (seg : List ℕ) (tag : ℕ) : ℕ → ℕ → Option RawField
  | _, 0 => none
  | pos, k + 1 =>
    match readBytesAt seg pos 12 with
    | none => none
    | some r =>
      if fromLE2 (r.take 2) = tag then
        some ⟨fromLE2 ((r.drop 2).take 2), fromLE4 ((r.drop 4).take 4), (r.drop 8).take 4⟩
      else findFieldAux seg tag (pos + 12) k

/-- Look a tag up in the directory whose entry count sits at `dirOff`. -/
def findFieldIn (seg : List ℕ) (dirOff tag : ℕ) : Option RawField :=
  match readU16at seg dirOff with
  | none => none
  | some n => findFieldAux seg tag (dirOff + 2) n

/-- Offset of IFD0, taken from the little-endian TIFF header. -/
def ifd0Off (seg : List ℕ) : ℕ := (readU32at seg 4).getD 0

def findIfd0 (seg : List ℕ) (tag : ℕ) : Option RawField := findFieldIn seg (ifd0Off seg) tag

/-- Follow the GPS-IFD pointer entry (tag 0x8825, type LONG, count 1). -/
def gpsDirOff (seg : List ℕ) : Option ℕ :=
  match findIfd0 seg 0x8825 with
  | some f => if f.typ = 4 ∧ f.cnt = 1 then some (fromLE4 f.val4) else none
  | none => none

def findGps (seg : List ℕ) (tag : ℕ) : Option RawField :=
  match gpsDirOff seg with
  | some g => findFieldIn seg g tag
  | none => none

/-- A SHORT field's (single) value, stored inline. -/
def fieldShort (f : RawField) : Option ℕ :=
  if f.typ = 3 ∧ f.cnt = 1 then some (fromLE2 f.val4) else none

/-- An ASCII field's raw bytes: inline when `count ≤ 4`, else at the offset
held in the value slot (failing when out of bounds). -/
def fieldAscii (seg : List ℕ) (f : RawField) : Option (List ℕ) :=
  if f.typ = 2 then
    if f.cnt ≤ 4 then some (f.val4.take f.cnt) else readBytesAt seg (fromLE4 f.val4) f.cnt
  else none

/-- A RATIONAL array (8 bytes per element, always out of line). -/
def readRats (seg : List ℕ) (off : ℕ) : ℕ → Option (List (ℕ × ℕ))
  | 0 => some []
  | k + 1 =>
    match readU32at seg off, readU32at seg (off + 4), readRats seg (off + 8) k with
    | some n, some d, some t => some ((n, d) :: t)
    | _, _, _ => none

def fieldRats (seg : List ℕ) (f : RawField) : Option (List (ℕ × ℕ)) :=
  if f.typ = 5 then readRats seg (fromLE4 f.val4) f.cnt else none

/-- An UNDEFINED field's bytes. -/
def fieldUndef (seg : List ℕ) (f : RawField) : Option (List ℕ) :=
  if f.typ = 7 then
    if f.cnt ≤ 4 then some (f.val4.take f.cnt) else readBytesAt seg (fromLE4 f.val4) f.cnt
  else none

/-- First NUL-terminated string of an ASCII value (the `exif` crate splits
ASCII values at NUL bytes; the source uses element 0). -/
def asciiFirst (bytes : List ℕ) : List ℕ := bytes.takeWhile (fun c => c ≠ 0)

/-- `Rational::to_f64`. -/
def ratQ (p : ℕ × ℕ) : ℚ := (p.1 : ℚ) / (p.2 : ℚ)

/-- Orientation from IFD0 (`Value::Short`, first element). -/
def decodeOrientation (seg : List ℕ) : Option ℕ :=
  match findIfd0 seg 0x0112 with
  | some f => fieldShort f
  | none => none

/-- Shared DMS decode for latitude/longitude: needs both the coordinate tag
and its reference tag present; sign from the reference's first byte. -/
def decodeCoord (seg : List ℕ) (coordTag refTag negByte : ℕ) : ℚ :=
  match findGps seg coordTag, findGps seg refTag with
  | some cF, some rF =>
    match fieldRats seg cF with
    | some coords =>
      if 3 ≤ coords.length then
        let v := ratQ (coords.getD 0 (0, 1)) + ratQ (coords.getD 1 (0, 1)) / 60 +
          ratQ (coords.getD 2 (0, 1)) / 3600
        match fieldAscii seg rF with
        | some refB => if (asciiFirst refB).take 1 = [negByte] then -v else v
        | none => v
      else 0
    | none => 0
  | _, _ => 0

def decodeLatitude (seg : List ℕ) : ℚ := decodeCoord seg 0x0002 0x0001 83

def decodeLongitude (seg : List ℕ) : ℚ := decodeCoord seg 0x0004 0x0003 87

/-- Altitude from GPSAltitude (first rational); GPSAltitudeRef is never
consulted by the source. -/
def decodeAltitude (seg : List ℕ) : Option ℚ :=
  match findGps seg 0x0006 with
  | some f =>
    match fieldRats seg f with
    | some (p :: _) => some (ratQ p)
    | _ => none
  | none => none

/-- Bearing from GPSImgDirection (first rational). -/
def decodeBearing (seg : List ℕ) : Option ℚ :=
  match findGps seg 0x0011 with
  | some f =>
    match fieldRats seg f with
    | some (p :: _) => some (ratQ p)
    | _ => none
  | none => none

/-- Proleptic-Gregorian day number of a civil date (inverse of
`civilFromDays`). -/
def daysFromCivil (y : ℤ) (mo d : ℕ) : ℤ :=
  let y' := if mo ≤ 2 then y - 1 else y
  let era := y'.ediv 400
  let yoe := (y' - era * 400).toNat
  let doy := (153 * (if mo > 2 then mo - 3 else mo + 9) + 2) / 5 + d - 1
  let doe := yoe * 365 + yoe / 4 - yoe / 100 + doy
  era * 146097 + (doe : ℤ) - 719468

def isLeap (y : ℤ) : Bool := (y.emod 4 = 0 ∧ y.emod 100 ≠ 0) ∨ y.emod 400 = 0

def daysInMonth (y : ℤ) (mo : ℕ) : ℕ :=
  if mo = 2 then (if isLeap y then 29 else 28)
  else if mo = 4 ∨ mo = 6 ∨ mo = 9 ∨ mo = 11 then 30 else 31

def isDigit (c : ℕ) : Bool := 48 ≤ c ∧ c ≤ 57

def digitVal (c : ℕ) : ℕ := c - 48

/-- `chrono::NaiveDateTime::parse_from_str(s, "%Y:%m:%d %H:%M:%S")` followed
by `.and_utc().timestamp()`, returning 0 on any parse failure (the source
leaves `captured_at` at its `0` default then). -/
def parseExifDatetime (s : List ℕ) : ℤ :=
  match s with
  | [y1, y2, y3, y4, 58, m1, m2, 58, d1, d2, 32, h1, h2, 58, i1, i2, 58, s1, s2] =>
    if isDigit y1 ∧ isDigit y2 ∧ isDigit y3 ∧ isDigit y4 ∧ isDigit m1 ∧ isDigit m2 ∧
       isDigit d1 ∧ isDigit d2 ∧ isDigit h1 ∧ isDigit h2 ∧ isDigit i1 ∧ isDigit i2 ∧
       isDigit s1 ∧ isDigit s2 then
      let y : ℤ := 1000 * digitVal y1 + 100 * digitVal y2 + 10 * digitVal y3 + digitVal y4
      let mo := 10 * digitVal m1 + digitVal m2
      let d := 10 * digitVal d1 + digitVal d2
      let h := 10 * digitVal h1 + digitVal h2
      let mi := 10 * digitVal i1 + digitVal i2
      let sec := 10 * digitVal s1 + digitVal s2
      if 1 ≤ mo ∧ mo ≤ 12 ∧ 1 ≤ d ∧ d ≤ daysInMonth y mo ∧ h ≤ 23 ∧ mi ≤ 59 ∧ sec ≤ 59 then
        daysFromCivil y mo d * 86400 + h * 3600 + mi * 60 + sec
      else 0
    else 0
  | _ => 0

def decodeCapturedAt (seg : List ℕ) : ℤ :=
  match findIfd0 seg 0x0132 with
  | some f =>
    match fieldAscii seg f with
    | some bytes => parseExifDatetime (asciiFirst bytes)
    | none => 0
  | none => 0

/-- UTF-8 bytes of `"unknown"`, the provenance default. -/
def unknownBytes : List ℕ := [117, 110, 107, 110, 111, 119, 110]

/-- Provenance from UserComment: skip the 8-byte character-code header and
JSON-parse the payload; any failure falls back to `"unknown"`/`"unknown"`
without an error. -/
def decodeSources (seg : List ℕ) : List ℕ × List ℕ :=
  match findIfd0 seg 0x9286 with
  | some f =>
    match fieldUndef seg f with
    | some bytes =>
      if bytes.length > 8 then
        match provParse (bytes.drop 8) with
        | some (a, b) => (a, b)
        | none => (unknownBytes, unknownBytes)
      else (unknownBytes, unknownBytes)
    | none => (unknownBytes, unknownBytes)
  | none => (unknownBytes, unknownBytes)

/-- Reconstruct the `PhotoMetadata` record from a TIFF segment, defaults as
initialized by the source (`accuracy` is never read from EXIF). -/
def decodeMetadata (tiff : List ℕ) : PhotoMetadata :=
  { latitude := decodeLatitude tiff
    longitude := decodeLongitude tiff
    altitude := decodeAltitude tiff
    bearing := decodeBearing tiff
    captured_at := decodeCapturedAt tiff
    accuracy := 0
    location_source := (decodeSources tiff).1
    bearing_source := (decodeSources tiff).2
    orientation_code := decodeOrientation tiff }

/-- Tags of `k` consecutive directory records starting at `pos`. -/
def dirTagsAux (seg : List ℕ) : ℕ → ℕ → List ℕ
  | _, 0 => []
  | pos, k + 1 =>
    (match readBytesAt seg pos 12 with
     | some r => [fromLE2 (r.take 2)]
     | none => []) ++ dirTagsAux seg (pos + 12) k

/-- The tag numbers of a directory, in the order its entries are laid out. -/
def dirTags (seg : List ℕ) (off : ℕ) : List ℕ :=
  match readU16at seg off with
  | some n => dirTagsAux seg (off + 2) n
  | none => []

def ifd0Tags (seg : List ℕ) : List ℕ := dirTags seg (ifd0Off seg)

def gpsTags (seg : List ℕ) : List ℕ :=
  match gpsDirOff seg with
  | some g => dirTags seg g
  | none => []

inductive ExifReadError where
  | noExifData
  | invalidExifFormat
  deriving Repr, DecidableEq

/-- UTF-8 bytes of `"Exif\0\0"`. -/
def exifHeaderBytes : List ℕ := [69, 120, 105, 102, 0, 0]

/-- `read_photo_exif`, from the extracted EXIF segment on: `None` (the JPEG
has no EXIF segment) is the `NoExifData` error; otherwise strip an optional
`"Exif\0\0"` prefix, else require a TIFF byte-order marker, else fail with
`InvalidExifFormat`. -/
def readPhotoExif (segOpt : Option (List ℕ)) : Except ExifReadError PhotoMetadata :=
  match segOpt with
  | none => .error .noExifData
  | some exifData =>
    if 6 ≤ exifData.length ∧ exifData.take 6 = exifHeaderBytes then
      .ok (decodeMetadata (exifData.drop 6))
    else if 2 ≤ exifData.length ∧
        (exifData.take 2 = [73, 73] ∨ exifData.take 2 = [77, 77]) then
      .ok (decodeMetadata exifData)
    else .error .invalidExifFormat

/-! ## Concrete metadata records for the bug-evidence theorems -/

/-- UTF-8 bytes of `"manual"`. -/
def manualBytes : List ℕ := [109, 97, 110, 117, 97, 108]

/-- Full metadata (orientation, altitude, bearing, provenance all present). -/
def mC3 : PhotoMetadata := mkMeta 10 20 (some 35) (some 270) 1700000000 5
  manualBytes manualBytes (some 6)

def mC4 : PhotoMetadata := mkMeta 10 20 none none 1700000000 5
  manualBytes manualBytes none

def mC5 : PhotoMetadata := mkMeta 10 20 none none 1700000000 5
  manualBytes manualBytes none

def mC1neg : PhotoMetadata := mkMeta 10 20 (some (-100)) none 1700000000 5
  manualBytes manualBytes none

/-- Evaluation helper: `toU32` of a rational that equals a (small enough)
natural number. -/
theorem toU32_eq_of (q : ℚ) (n : ℕ) (h : q = n) (hn : n ≤ 4294967295) : toU32 q = n := by
  subst h
  unfold toU32 qtrunc
  rw [if_neg (not_lt.2 (by positivity)), Int.floor_natCast]
  omega

theorem dmsDeg10 : dmsDeg (10 : ℚ) = 10 := toU32_eq_of _ _ (by norm_num) (by norm_num)

theorem dmsMin10 : dmsMin (10 : ℚ) = 0 := by
  unfold dmsMin
  rw [dmsDeg10]
  exact toU32_eq_of _ _ (by norm_num) (by norm_num)

theorem dmsSec10 : dmsSec100 (10 : ℚ) = 0 := by
  unfold dmsSec100
  rw [dmsDeg10, dmsMin10]
  exact toU32_eq_of _ _ (by norm_num) (by norm_num)

theorem dmsDeg20 : dmsDeg (20 : ℚ) = 20 := toU32_eq_of _ _ (by norm_num) (by norm_num)

theorem dmsMin20 : dmsMin (20 : ℚ) = 0 := by
  unfold dmsMin
  rw [dmsDeg20]
  exact toU32_eq_of _ _ (by norm_num) (by norm_num)

theorem dmsSec20 : dmsSec100 (20 : ℚ) = 0 := by
  unfold dmsSec100
  rw [dmsDeg20, dmsMin20]
  exact toU32_eq_of _ _ (by norm_num) (by norm_num)

/-- GPS base entries for latitude 10 / longitude 20. -/
def gpsBase1020 : List ExifEntry :=
  [⟨0x0000, .undefined [2, 3, 0, 0]⟩,
   ⟨0x0001, .ascii [78]⟩,
   ⟨0x0002, .rationals [(10, 1), (0, 1), (0, 100)]⟩,
   ⟨0x0003, .ascii [69]⟩,
   ⟨0x0004, .rationals [(20, 1), (0, 1), (0, 100)]⟩]

theorem gpsC3_eval : gpsEntries mC3 =
    gpsBase1020 ++
    [⟨0x0005, .short 0⟩, ⟨0x0006, .rational 35000 1000⟩,
     ⟨0x0010, .ascii [84]⟩, ⟨0x0011, .rational 27000 100⟩,
     ⟨0x0017, .ascii [84]⟩, ⟨0x0018, .rational 27000 100⟩] := by
  have ha : toU32 (|(35 : ℚ)| * 1000) = 35000 := toU32_eq_of _ _ (by norm_num) (by norm_num)
  have hb : toU32 ((270 : ℚ) * 100) = 27000 := toU32_eq_of _ _ (by norm_num) (by norm_num)
  simp only [gpsEntries, mC3, mkMeta, dmsDeg10, dmsMin10, dmsSec10, dmsDeg20, dmsMin20,
    dmsSec20, ha, hb, gpsBase1020]
  norm_num

theorem gpsC4_eval : gpsEntries mC4 = gpsBase1020 := by
  simp only [gpsEntries, mC4, mkMeta, dmsDeg10, dmsMin10, dmsSec10, dmsDeg20, dmsMin20,
    dmsSec20, gpsBase1020]
  norm_num

theorem gpsC5_eval : gpsEntries mC5 = gpsBase1020 := by
  simp only [gpsEntries, mC5, mkMeta, dmsDeg10, dmsMin10, dmsSec10, dmsDeg20, dmsMin20,
    dmsSec20, gpsBase1020]
  norm_num

theorem gpsC1neg_eval : gpsEntries mC1neg =
    gpsBase1020 ++ [⟨0x0005, .short 0⟩, ⟨0x0006, .rational 100000 1000⟩] := by
  have ha : toU32 (|(-100 : ℚ)| * 1000) = 100000 := toU32_eq_of _ _ (by norm_num) (by norm_num)
  simp only [gpsEntries, mC1neg, mkMeta, dmsDeg10, dmsMin10, dmsSec10, dmsDeg20, dmsMin20,
    dmsSec20, ha, gpsBase1020]
  norm_num

/-- Adjacent strict ascent of a tag list ("strictly ascending tag-number
order"). -/
def strictAscend : List ℕ → Bool
  | [] => true
  | [_] => true
  | a :: b :: t => a.blt b && strictAscend (b :: t)

/-! ## Claim C3: directory ordering (code bug) -/

/-- C3 (code bug): with every optional field present, the emitted IFD0
directory lists its tags as `[0x0112, 0x0132, 0x9003, 0x8825, 0x9286]` —
the GPS-IFD pointer `0x8825` is appended after `DateTimeOriginal = 0x9003`,
so IFD0 is *not* in strictly ascending tag order (the GPS IFD itself is). -/
theorem C3_ifd0_order_bug :
    ifd0Tags (createExifSegmentStructured mC3) =
      [0x0112, 0x0132, 0x9003, 0x8825, 0x9286] ∧
    strictAscend (ifd0Tags (createExifSegmentStructured mC3)) = false ∧
    strictAscend (gpsTags (createExifSegmentStructured mC3)) = true := by
  rw [createExifSegmentStructured, gpsC3_eval]
  decide

/-! ## Claim C4: offset integrity (code bug) -/

/-- C4 (code bug): the DateTime IFD0 entry claims type ASCII with count 20
(`> 4` bytes), but its 4-byte value slot holds the truncated text
`"202\0"` instead of a data offset; read as an offset it is 3289138, far
beyond the segment, so no in-segment bytes deserialize back to the value. -/
theorem C4_offset_integrity_bug :
    findIfd0 (createExifSegmentStructured mC4) 0x0132 =
      some ⟨2, 20, [50, 48, 50, 0]⟩ ∧
    fromLE4 [50, 48, 50, 0] = 3289138 ∧
    (createExifSegmentStructured mC4).length < 3289138 ∧
    readBytesAt (createExifSegmentStructured mC4) 3289138 20 = none := by
  rw [createExifSegmentStructured, gpsC4_eval]
  decide

/-! ## Claim C5: DateTime storage (code bug) -/

/-- C5 (code bug): `add_timestamps` does derive the 19-character
`"YYYY:MM:DD HH:MM:SS"` string (20 bytes with the NUL) from `captured_at`
as UTC — for 1700000000 it is `"2023:11:14 22:13:20"` — and the entry's
count field says 20, but `write_ifd_entry` stores only the first 3
characters plus NUL inline, so the 20 bytes are not recoverable from the
segment: the ASCII read fails and the decoded `captured_at` is 0. -/
theorem C5_datetime_truncation_bug :
    formatTimestamp 1700000000 =
      [50, 48, 50, 51, 58, 49, 49, 58, 49, 52, 32, 50, 50, 58, 49, 51, 58, 50, 48] ∧
    (formatTimestamp 1700000000).length + 1 = 20 ∧
    findIfd0 (createExifSegmentStructured mC5) 0x0132 =
      some ⟨2, 20, [50, 48, 50, 0]⟩ ∧
    fieldAscii (createExifSegmentStructured mC5) ⟨2, 20, [50, 48, 50, 0]⟩ = none ∧
    decodeCapturedAt (createExifSegmentStructured mC5) = 0 := by
  rw [createExifSegmentStructured, gpsC5_eval]
  decide

/-! ## Claim C1: round trip (counterexample for negative altitude) -/

/-- C1 counterexample: `mC1neg` satisfies every documented §3 range
(altitude −100 ∈ [−500, 10000]), yet decoding the encoder's segment yields
altitude `+100`: the sign was dropped (`abs` on encode, reference byte
always 0), an error of 200 m, far beyond the claimed 0.001 m. -/
theorem C1_roundtrip_counterexample :
    mC1neg.altitude = some (-100) ∧
    (decodeMetadata (createExifSegmentStructured mC1neg)).altitude = some 100 ∧
    ¬ |(100 : ℚ) - (-100 : ℚ)| ≤ 1 / 1000 := by
  refine ⟨rfl, ?_, by norm_num⟩
  rw [createExifSegmentStructured, gpsC1neg_eval]
  have hfind : findGps (buildExif (ifd0Entries mC1neg)
      (gpsBase1020 ++ [⟨0x0005, .short 0⟩, ⟨0x0006, .rational 100000 1000⟩])
      (userComment mC1neg)) 0x0006 = some ⟨5, 1, [200, 0, 0, 0]⟩ := by
    decide
  have hrats : fieldRats (buildExif (ifd0Entries mC1neg)
      (gpsBase1020 ++ [⟨0x0005, .short 0⟩, ⟨0x0006, .rational 100000 1000⟩])
      (userComment mC1neg)) ⟨5, 1, [200, 0, 0, 0]⟩ = some [(100000, 1000)] := by
    decide
  show decodeAltitude (buildExif (ifd0Entries mC1neg)
      (gpsBase1020 ++ [⟨0x0005, .short 0⟩, ⟨0x0006, .rational 100000 1000⟩])
      (userComment mC1neg)) = some 100
  simp only [decodeAltitude, hfind, hrats]
  norm_num [ratQ]

/-! ## Claim C6: decoder error conditions -/

theorem take_eq_imp_le {s l : List ℕ} {k : ℕ} (hl : l.length = k) (h : s.take k = l) :
    k ≤ s.length := by
  have := congrArg List.length h
  rw [List.length_take, hl] at this
  omega

/-- C6: the decoder fails with `NoExifData` exactly when the JPEG has no
EXIF segment; with a segment present it fails with `InvalidExifFormat`
exactly when the segment starts neither with `"Exif\0\0"` nor with a TIFF
byte-order marker `"II"`/`"MM"` (and strips/keeps the prefix otherwise). -/
theorem C6_error_conditions (segOpt : Option (List ℕ)) :
    (readPhotoExif segOpt = .error .noExifData ↔ segOpt = none) ∧
    (∀ s, segOpt = some s →
      (readPhotoExif segOpt = .error .invalidExifFormat ↔
        ¬ (s.take 6 = exifHeaderBytes ∨ s.take 2 = [73, 73] ∨ s.take 2 = [77, 77]))) := by
  rcases segOpt with _ | s
  · refine ⟨⟨fun _ => rfl, fun _ => rfl⟩, fun s hs => by cases hs⟩
  · constructor
    · -- with a segment present the result is never `NoExifData`
      rw [readPhotoExif]
      constructor
      · intro h
        split_ifs at h
        cases h
      · intro h
        cases h
    · intro t ht
      injection ht with ht
      subst ht
      rw [readPhotoExif]
      by_cases h1 : 6 ≤ s.length ∧ s.take 6 = exifHeaderBytes
      · rw [if_pos h1]
        constructor
        · intro h
          cases h
        · intro h
          exact absurd (Or.inl h1.2) h
      · rw [if_neg h1]
        by_cases h2 : 2 ≤ s.length ∧ (s.take 2 = [73, 73] ∨ s.take 2 = [77, 77])
        · rw [if_pos h2]
          constructor
          · intro h
            cases h
          · intro h
            exact absurd (Or.inr h2.2) h
        · rw [if_neg h2]
          constructor
          · intro _ h
            rcases h with h | h | h
            · exact h1 ⟨take_eq_imp_le (by rfl) h, h⟩
            · exact h2 ⟨take_eq_imp_le (by rfl) h, Or.inl h⟩
            · exact h2 ⟨take_eq_imp_le (by rfl) h, Or.inr h⟩
          · intro _
            rfl

/-- Witness for C6: the 3-byte segment `[0, 1, 2]` starts with none of the
three prefixes and is rejected as `InvalidExifFormat`. -/
theorem C6_error_conditions_witness :
    readPhotoExif (some [0, 1, 2]) = .error .invalidExifFormat := by
  exact ((C6_error_conditions (some [0, 1, 2])).2 [0, 1, 2] rfl).mpr (by decide)

/-! ## Segment-structure lemmas

Infrastructure for evaluating the decoder on an arbitrary encoder output:
exact slice reads at append boundaries, a specification of the directory
scan over a block of 12-byte records, and shape lemmas for the records the
builder emits. -/

theorem padTo_eq_self {l : List ℕ} {n : ℕ} (h : n ≤ l.length) : padTo l n = l := by
  unfold padTo
  rw [Nat.sub_eq_zero_of_le h]
  simp

theorem concatL_append (a b : List (List ℕ)) : concatL (a ++ b) = concatL a ++ concatL b := by
  induction a with
  | nil => rfl
  | cons h t ih => simp [concatL, ih]

theorem concatL_length_const (a : List (List ℕ)) (k : ℕ) (h : ∀ r ∈ a, r.length = k) :
    (concatL a).length = k * a.length := by
  induction a with
  | nil => simp [concatL]
  | cons r t ih =>
    simp only [concatL, List.length_append, List.length_cons]
    rw [h r (by simp), ih (fun x hx => h x (by simp [hx]))]
    ring

theorem readBytesAt_exact (pre mid suf : List ℕ) :
    readBytesAt (pre ++ (mid ++ suf)) pre.length mid.length = some mid := by
  unfold readBytesAt
  rw [if_pos (by simp only [List.length_append]; omega)]
  rw [List.drop_left, List.take_left]

theorem readU16at_exact (pre suf : List ℕ) (n : ℕ) (h : n < 65536) :
    readU16at (pre ++ (u16le n ++ suf)) pre.length = some n := by
  unfold readU16at
  rw [show readBytesAt (pre ++ (u16le n ++ suf)) pre.length 2 = some (u16le n) from
    readBytesAt_exact pre (u16le n) suf]
  simp [fromLE2_u16le n h]

theorem readU32at_exact (pre suf : List ℕ) (n : ℕ) (h : n < 4294967296) :
    readU32at (pre ++ (u32le n ++ suf)) pre.length = some n := by
  unfold readU32at
  rw [show readBytesAt (pre ++ (u32le n ++ suf)) pre.length 4 = some (u32le n) from
    readBytesAt_exact pre (u32le n) suf]
  simp [fromLE4_u32le n h]

/-- A 12-byte directory record: tag, type, 4 count bytes, 4 value bytes. -/
def mkRec (t ty : ℕ) (cb vb : List ℕ) : List ℕ := u16le t ++ (u16le ty ++ (cb ++ vb))

theorem mkRec_length (t ty : ℕ) {cb vb : List ℕ} (hcb : cb.length = 4) (hvb : vb.length = 4) :
    (mkRec t ty cb vb).length = 12 := by
  simp [mkRec, hcb, hvb]

theorem mkRec_tag (t ty : ℕ) (cb vb : List ℕ) (ht : t < 65536) :
    fromLE2 ((mkRec t ty cb vb).take 2) = t := by
  unfold mkRec
  rw [List.take_left' (by rfl)]
  exact fromLE2_u16le t ht

theorem mkRec_parse (t ty : ℕ) (cb vb : List ℕ) (hcb : cb.length = 4) (hvb : vb.length = 4)
    (hty : ty < 65536) :
    fromLE2 (((mkRec t ty cb vb).drop 2).take 2) = ty ∧
    fromLE4 (((mkRec t ty cb vb).drop 4).take 4) = fromLE4 cb ∧
    ((mkRec t ty cb vb).drop 8).take 4 = vb := by
  unfold mkRec
  refine ⟨?_, ?_, ?_⟩
  · rw [List.drop_left' (by rfl), List.take_left' (by rfl)]
    exact fromLE2_u16le ty hty
  · rw [show u16le t ++ (u16le ty ++ (cb ++ vb)) = (u16le t ++ u16le ty) ++ (cb ++ vb) by
      simp [List.append_assoc]]
    rw [List.drop_left' (by rfl), List.take_left' hcb]
  · rw [show u16le t ++ (u16le ty ++ (cb ++ vb)) = (u16le t ++ u16le ty ++ cb) ++ vb by
      simp [List.append_assoc]]
    rw [List.drop_left' (by simp [hcb]), ← hvb, List.take_length]

/-- The raw field a successful 12-byte record parse produces. -/
def recField (r : List ℕ) : RawField :=
  ⟨fromLE2 ((r.drop 2).take 2), fromLE4 ((r.drop 4).take 4), (r.drop 8).take 4⟩

/-- Directory-scan specification: scanning `recs.length` records laid out
contiguously at `pre.length` finds exactly the first record with the wanted
tag. -/
theorem findFieldAux_block (tag : ℕ) (recs : List (List ℕ)) (pre suf : List ℕ)
    (h12 : ∀ r ∈ recs, r.length = 12) :
    findFieldAux (pre ++ (concatL recs ++ suf)) tag pre.length recs.length =
      (recs.find? (fun r => fromLE2 (r.take 2) == tag)).map recField := by
  induction recs generalizing pre with
  | nil => rfl
  | cons r rest ih =>
    have h12r : r.length = 12 := h12 r (by simp)
    have hseg : pre ++ (concatL (r :: rest) ++ suf) = pre ++ (r ++ (concatL rest ++ suf)) := by
      simp [concatL, List.append_assoc]
    have hread : readBytesAt (pre ++ (concatL (r :: rest) ++ suf)) pre.length 12 = some r := by
      rw [hseg]
      have := readBytesAt_exact pre r (concatL rest ++ suf)
      rw [h12r] at this
      exact this
    rw [show (r :: rest).length = rest.length + 1 from rfl]
    rw [findFieldAux, hread]
    dsimp only
    rw [List.find?_cons]
    by_cases htag : fromLE2 (r.take 2) = tag
    · have hb : (fromLE2 (r.take 2) == tag) = true := by simp [htag]
      rw [if_pos htag, hb]
      rfl
    · have hb : (fromLE2 (r.take 2) == tag) = false := by simp [htag]
      rw [if_neg htag, hb]
      have hpre : (pre ++ r).length = pre.length + 12 := by simp [h12r]
      have := ih (pre ++ r) (fun x hx => h12 x (by simp [hx]))
      rw [hpre, List.append_assoc] at this
      rw [← hseg] at this
      exact this

/-- Reading back a rational array written by `ratsBytes`. -/
theorem readRats_exact (vs : List (ℕ × ℕ)) (pre suf : List ℕ)
    (hb : ∀ p ∈ vs, p.1 < 4294967296 ∧ p.2 < 4294967296) :
    readRats (pre ++ (ratsBytes vs ++ suf)) pre.length vs.length = some vs := by
  induction vs generalizing pre with
  | nil => rfl
  | cons p t ih =>
    have hp := hb p (by simp)
    have hshape : pre ++ (ratsBytes (p :: t) ++ suf) =
        pre ++ (u32le p.1 ++ (u32le p.2 ++ (ratsBytes t ++ suf))) := by
      simp [ratsBytes, List.append_assoc]
    rw [show (p :: t).length = t.length + 1 from rfl, readRats]
    have h1 : readU32at (pre ++ (ratsBytes (p :: t) ++ suf)) pre.length = some p.1 := by
      rw [hshape]
      exact readU32at_exact pre _ p.1 hp.1
    have h2 : readU32at (pre ++ (ratsBytes (p :: t) ++ suf)) (pre.length + 4) = some p.2 := by
      rw [hshape, show pre ++ (u32le p.1 ++ (u32le p.2 ++ (ratsBytes t ++ suf))) =
        (pre ++ u32le p.1) ++ (u32le p.2 ++ (ratsBytes t ++ suf)) by simp [List.append_assoc]]
      have := readU32at_exact (pre ++ u32le p.1) (ratsBytes t ++ suf) p.2 hp.2
      rw [show (pre ++ u32le p.1).length = pre.length + 4 by simp] at this
      exact this
    have h3 : readRats (pre ++ (ratsBytes (p :: t) ++ suf)) (pre.length + 8) t.length =
        some t := by
      rw [hshape, show pre ++ (u32le p.1 ++ (u32le p.2 ++ (ratsBytes t ++ suf))) =
        (pre ++ u32le p.1 ++ u32le p.2) ++ (ratsBytes t ++ suf) by simp [List.append_assoc]]
      have := ih (pre ++ u32le p.1 ++ u32le p.2) (fun x hx => hb x (by simp [hx]))
      rw [show (pre ++ u32le p.1 ++ u32le p.2).length = pre.length + 8 by simp] at this
      exact this
    rw [h1, h2, h3]

/-! ## Shapes of the records the builder emits -/

theorem writeIfdEntry_short (t v : ℕ) :
    writeIfdEntry ⟨t, .short v⟩ = mkRec t 3 [1, 0, 0, 0] (u16le v ++ [0, 0]) := by
  simp [writeIfdEntry, mkRec, u16le]

theorem writeIfdEntry_ascii_long (t : ℕ) (s : List ℕ) (h : ¬ s.length + 1 ≤ 4) :
    writeIfdEntry ⟨t, .ascii s⟩ =
      mkRec t 2 (u32le (s.length + 1)) (s.take 3 ++ [0]) := by
  have h3 : min 3 s.length = 3 := by omega
  simp only [writeIfdEntry, mkRec, if_neg h, h3]
  rw [show padTo (s.take 3 ++ [0]) 4 = s.take 3 ++ [0] from
    padTo_eq_self (by simp [List.length_take]; omega)]
  simp [u16le, List.append_assoc]

theorem writeGpsEntry_undef4 (t : ℕ) (v : List ℕ) (off : ℕ) (h : v.length = 4) :
    writeGpsEntry ⟨t, .undefined v⟩ off = (mkRec t 1 (u32le v.length) v, off) := by
  simp only [writeGpsEntry, mkRec, if_pos (by omega : v.length ≤ 4)]
  rw [padTo_eq_self (by omega)]
  simp [u16le]

theorem writeGpsEntry_ascii1 (t b : ℕ) (off : ℕ) :
    writeGpsEntry ⟨t, .ascii [b]⟩ off = (mkRec t 2 (u32le 2) [b, 0, 0, 0], off) := by
  simp only [writeGpsEntry, mkRec]
  norm_num [padTo, u16le, u32le, List.replicate]

theorem writeGpsEntry_short (t v : ℕ) (off : ℕ) :
    writeGpsEntry ⟨t, .short v⟩ off = (mkRec t 3 [1, 0, 0, 0] (u16le v ++ [0, 0]), off) := by
  simp [writeGpsEntry, mkRec, u16le]

theorem writeGpsEntry_rational (t n d off : ℕ) :
    writeGpsEntry ⟨t, .rational n d⟩ off =
      (mkRec t 5 [1, 0, 0, 0] (u32le off), off + 8) := by
  simp [writeGpsEntry, mkRec, u16le]

theorem writeGpsEntry_rationals (t : ℕ) (vs : List (ℕ × ℕ)) (off : ℕ) :
    writeGpsEntry ⟨t, .rationals vs⟩ off =
      (mkRec t 5 (u32le vs.length) (u32le off), off + 8 * vs.length) := by
  simp [writeGpsEntry, mkRec, u16le]

theorem ratsBytes_length (vs : List (ℕ × ℕ)) : (ratsBytes vs).length = 8 * vs.length := by
  induction vs with
  | nil => rfl
  | cons p t ih => simp [ratsBytes, ih]; ring

/-! ## The builder's entry lists are already tag-sorted -/

theorem insertEntry_eq_cons {e : ExifEntry} {l : List ExifEntry}
    (h : ∀ x ∈ l, e.tag < x.tag) : insertEntry e l = e :: l := by
  cases l with
  | nil => rfl
  | cons a t => exact if_pos (h a (by simp))

theorem sortEntries_eq_self : ∀ l : List ExifEntry,
    List.Pairwise (fun a b : ExifEntry => a.tag < b.tag) l → sortEntries l = l
  | [], _ => rfl
  | a :: t, h => by
    rw [sortEntries, sortEntries_eq_self t (List.Pairwise.of_cons h)]
    exact insertEntry_eq_cons (fun x hx => List.rel_of_pairwise_cons h hx)

theorem ifd0Entries_sorted (m : PhotoMetadata) :
    sortEntries (ifd0Entries m) = ifd0Entries m := by
  apply sortEntries_eq_self
  unfold ifd0Entries
  rcases m.orientation_code with _ | o <;> norm_num [List.pairwise_cons]

theorem gpsEntries_sorted (m : PhotoMetadata) :
    sortEntries (gpsEntries m) = gpsEntries m := by
  apply sortEntries_eq_self
  unfold gpsEntries
  rcases m.altitude with _ | a <;> rcases m.bearing with _ | b <;>
    norm_num [List.pairwise_cons]

theorem gpsEntries_ne_nil (m : PhotoMetadata) : (gpsEntries m).isEmpty = false := by
  unfold gpsEntries
  rfl

/-! ## Layout quantities of the emitted segment -/

/-- IFD0 entry count as written (sorted entries + GPS pointer + UserComment). -/
def niCount (m : PhotoMetadata) : ℕ := (ifd0Entries m).length + 2

/-- `gps_ifd_offset`. -/
def gOff (m : PhotoMetadata) : ℕ := 8 + (2 + 12 * niCount m + 4)

def gCount (m : PhotoMetadata) : ℕ := (gpsEntries m).length

/-- `gps_data_offset`. -/
def dOff (m : PhotoMetadata) : ℕ := gOff m + 2 + 12 * gCount m + 4

def dSize (m : PhotoMetadata) : ℕ := calculateGpsDataSize (gpsEntries m)

/-- `comment_offset`. -/
def cOff (m : PhotoMetadata) : ℕ := gOff m + (2 + 12 * gCount m + 4 + dSize m)

/-- The UserComment bytes (always present). -/
def commentOf (m : PhotoMetadata) : List ℕ :=
  let j := jsonProvenance m.location_source m.bearing_source
  [65, 83, 67, 73, 73, 0, 0, 0] ++ (if j.length > 1000 then j.take 1000 else j)

theorem userComment_eq (m : PhotoMetadata) : userComment m = some (commentOf m) := rfl

theorem jsonProvenance_length (ls bs : List ℕ) :
    (jsonProvenance ls bs).length = 42 + (escBytes ls).length + (escBytes bs).length := by
  simp [jsonProvenance, provLit1, provLit2]
  omega

theorem commentOf_length_big (m : PhotoMetadata) : 4 < (commentOf m).length := by
  unfold commentOf
  simp

/-- The IFD0 directory records in emission order. -/
def ifd0Recs (m : PhotoMetadata) : List (List ℕ) :=
  (ifd0Entries m).map writeIfdEntry ++
  [mkRec 0x8825 4 [1, 0, 0, 0] (u32le (gOff m)),
   mkRec 0x9286 7 (u32le (commentOf m).length) (u32le (cOff m))]

theorem concatL_length (a : List (List ℕ)) : (concatL a).length = (a.map List.length).sum := by
  induction a with
  | nil => rfl
  | cons r t ih => simp [concatL, ih]

theorem writeGpsEntry_len12 (e : ExifEntry) (off : ℕ) (h : ∀ v, e.value ≠ .long v) :
    (writeGpsEntry e off).1.length = 12 := by
  obtain ⟨t, val⟩ := e
  cases val with
  | long v => exact absurd rfl (h v)
  | undefined v =>
    simp only [writeGpsEntry, padTo]
    split_ifs with hv
    · simp
      omega
    · simp
  | ascii s =>
    simp only [writeGpsEntry, padTo]
    split_ifs with hs
    · simp
      omega
    · simp
  | short v => simp [writeGpsEntry]
  | rational n d => simp [writeGpsEntry]
  | rationals vs => simp [writeGpsEntry]

theorem writeGpsRecs_len12 (es : List ExifEntry) (off : ℕ)
    (h : ∀ e ∈ es, ∀ v, e.value ≠ .long v) :
    ∀ r ∈ writeGpsRecs es off, r.length = 12 := by
  induction es generalizing off with
  | nil => intro r hr; cases hr
  | cons e t ih =>
    intro r hr
    rw [writeGpsRecs] at hr
    rcases List.mem_cons.1 hr with rfl | hr
    · exact writeGpsEntry_len12 e off (h e (by simp))
    · exact ih _ (fun x hx => h x (by simp [hx])) r hr

theorem writeGpsRecs_count (es : List ExifEntry) : ∀ off : ℕ, (writeGpsRecs es off).length = es.length := by
  induction es with
  | nil => intro off; rfl
  | cons e t ih =>
    intro off
    rw [writeGpsRecs]
    simp only [List.length_cons, ih]

theorem gpsValueBytes_size (e : ExifEntry) : (gpsValueBytes e).length = gpsValueSize e := by
  obtain ⟨t, val⟩ := e
  cases val with
  | rational n d => simp [gpsValueBytes, gpsValueSize]
  | rationals vs => simp [gpsValueBytes, gpsValueSize, ratsBytes_length]
  | undefined v =>
    simp only [gpsValueBytes, gpsValueSize]
    split_ifs <;> simp
  | ascii s =>
    simp only [gpsValueBytes, gpsValueSize]
    split_ifs <;> simp
  | short v => simp [gpsValueBytes, gpsValueSize]
  | long v => simp [gpsValueBytes, gpsValueSize]

theorem gpsData_length (gps : List ExifEntry) :
    (concatL (gps.map gpsValueBytes)).length = calculateGpsDataSize gps := by
  rw [concatL_length, calculateGpsDataSize]
  congr 1
  rw [List.map_map]
  exact List.map_congr_left (fun e _ => gpsValueBytes_size e)

/-- Decomposition of `buildExif` into right-nested chunks, for tag-sorted
nonempty inputs: both `padTo` pads are no-ops because the computed offsets
equal the lengths actually laid down. -/
theorem buildExif_decomp (ifd0 gps : List ExifEntry) (c : List ℕ)
    (hifd : sortEntries ifd0 = ifd0) (hgps : sortEntries gps = gps)
    (hgne : gps.isEmpty = false) (hclen : 4 < c.length)
    (hifdlen : ∀ e ∈ ifd0, (writeIfdEntry e).length = 12)
    (hnolong : ∀ e ∈ gps, ∀ v, e.value ≠ .long v) :
    buildExif ifd0 gps (some c) =
      [73, 73, 42, 0] ++ (u32le 8 ++ (u16le (ifd0.length + 2) ++
        (concatL (ifd0.map writeIfdEntry ++
          [mkRec 0x8825 4 [1, 0, 0, 0] (u32le (8 + (2 + 12 * (ifd0.length + 2) + 4))),
           mkRec 0x9286 7 (u32le c.length)
             (u32le (8 + (2 + 12 * (ifd0.length + 2) + 4) +
               (2 + 12 * gps.length + 4 + calculateGpsDataSize gps)))]) ++
         (u32le 0 ++ (u16le gps.length ++
          (concatL (writeGpsRecs gps
             (8 + (2 + 12 * (ifd0.length + 2) + 4) + 2 + 12 * gps.length + 4)) ++
           (u32le 0 ++ (concatL (gps.map gpsValueBytes) ++ c)))))))) := by
  have hGO : 8 + (2 + 12 * (ifd0.length + (if gps.isEmpty then 0 else 1) +
      (if (some c).isSome then 1 else 0)) + 4) = 8 + (2 + 12 * (ifd0.length + 2) + 4) := by
    rw [hgne]
    simp
  simp only [buildExif, hifd, hgps, hgne, Bool.false_eq_true, if_false, Option.isSome_some,
    if_true, ite_false, ite_true]
  rw [if_neg (by omega : ¬ c.length ≤ 4), if_pos (by omega : 4 < c.length)]
  have hp1 : ([73, 73, 42, 0] ++ u32le 8 ++ u16le (ifd0.length + (1 : ℕ) + 1) ++
      concatL (List.map writeIfdEntry ifd0) ++
      (u16le 0x8825 ++ [4, 0] ++ [1, 0, 0, 0] ++
        u32le (8 + (2 + 12 * (ifd0.length + 1 + 1) + 4))) ++
      (u16le 0x9286 ++ [7, 0] ++ u32le c.length ++
        u32le (8 + (2 + 12 * (ifd0.length + 1 + 1) + 4) +
          (2 + 12 * gps.length + 4 + calculateGpsDataSize gps))) ++
      u32le 0).length = 8 + (2 + 12 * (ifd0.length + 1 + 1) + 4) := by
    simp only [List.length_append, u16le_length, u32le_length, List.length_cons,
      List.length_nil]
    rw [concatL_length_const (List.map writeIfdEntry ifd0) 12
      (by intro r hr; obtain ⟨e, he, rfl⟩ := List.mem_map.1 hr; exact hifdlen e he)]
    simp
    omega
  rw [padTo_eq_self (le_of_eq hp1.symm)]
  generalize hq : ([73, 73, 42, 0] ++ u32le 8 ++ u16le (ifd0.length + 1 + 1) ++
      concatL (List.map writeIfdEntry ifd0) ++
      (u16le 0x8825 ++ [4, 0] ++ [1, 0, 0, 0] ++
        u32le (8 + (2 + 12 * (ifd0.length + 1 + 1) + 4))) ++
      (u16le 0x9286 ++ [7, 0] ++ u32le c.length ++
        u32le (8 + (2 + 12 * (ifd0.length + 1 + 1) + 4) +
          (2 + 12 * gps.length + 4 + calculateGpsDataSize gps))) ++
      u32le 0) = P1 at hp1 ⊢
  have hrecs12 : ∀ r ∈ writeGpsRecs gps
      (8 + (2 + 12 * (ifd0.length + 1 + 1) + 4) + 2 + 12 * gps.length + 4), r.length = 12 :=
    writeGpsRecs_len12 gps _ hnolong
  have hp2 : (P1 ++ u16le gps.length ++
      concatL (writeGpsRecs gps
        (8 + (2 + 12 * (ifd0.length + 1 + 1) + 4) + 2 + 12 * gps.length + 4)) ++
      u32le 0 ++ concatL (List.map gpsValueBytes gps)).length =
      8 + (2 + 12 * (ifd0.length + 1 + 1) + 4) +
        (2 + 12 * gps.length + 4 + calculateGpsDataSize gps) := by
    simp only [List.length_append, u16le_length, u32le_length]
    rw [concatL_length_const _ 12 hrecs12, writeGpsRecs_count, gpsData_length, hp1]
    omega
  rw [padTo_eq_self (le_of_eq hp2.symm)]
  rw [← hq]
  simp only [concatL_append, concatL, mkRec, List.append_nil, List.append_assoc]
  norm_num [u16le]

/-! ## The decomposition applied to `create_exif_segment_structured` -/

theorem formatTimestamp_len15 (ts : ℤ) : 15 ≤ (formatTimestamp ts).length := by
  simp only [formatTimestamp, pad2, List.length_append, List.length_cons, List.length_nil]
  omega

theorem ifd0Entries_len12 (m : PhotoMetadata) :
    ∀ e ∈ ifd0Entries m, (writeIfdEntry e).length = 12 := by
  have hts : ¬ (formatTimestamp m.captured_at).length + 1 ≤ 4 := by
    have := formatTimestamp_len15 m.captured_at
    omega
  have hascii : ∀ t : ℕ, (writeIfdEntry ⟨t, .ascii (formatTimestamp m.captured_at)⟩).length = 12 := by
    intro t
    rw [writeIfdEntry_ascii_long t _ hts]
    refine mkRec_length _ _ rfl ?_
    have := formatTimestamp_len15 m.captured_at
    simp [List.length_take]
    omega
  unfold ifd0Entries
  rcases m.orientation_code with _ | o
  · intro e he
    fin_cases he
    · exact hascii _
    · exact hascii _
  · intro e he
    fin_cases he
    · rw [writeIfdEntry_short]
      exact mkRec_length _ _ rfl (by simp)
    · exact hascii _
    · exact hascii _

theorem gpsEntries_no_long (m : PhotoMetadata) :
    ∀ e ∈ gpsEntries m, ∀ v, e.value ≠ .long v := by
  unfold gpsEntries
  rcases m.altitude with _ | a <;> rcases m.bearing with _ | b <;>
    · intro e he
      fin_cases he <;> simp

theorem ifd0Recs_count (m : PhotoMetadata) : (ifd0Recs m).length = niCount m := by
  simp [ifd0Recs, niCount]

theorem ifd0Recs_len12 (m : PhotoMetadata) : ∀ r ∈ ifd0Recs m, r.length = 12 := by
  intro r hr
  unfold ifd0Recs at hr
  rcases List.mem_append.1 hr with hr | hr
  · obtain ⟨e, he, rfl⟩ := List.mem_map.1 hr
    exact ifd0Entries_len12 m e he
  · rcases List.mem_cons.1 hr with rfl | hr
    · exact mkRec_length _ _ rfl rfl
    · rcases List.mem_cons.1 hr with rfl | hr
      · exact mkRec_length _ _ rfl rfl
      · cases hr

theorem niCount_le (m : PhotoMetadata) : niCount m ≤ 5 := by
  unfold niCount ifd0Entries
  rcases m.orientation_code with _ | o <;> simp

theorem gCount_le (m : PhotoMetadata) : gCount m ≤ 11 := by
  unfold gCount gpsEntries
  rcases m.altitude with _ | a <;> rcases m.bearing with _ | b <;> simp

theorem dSize_eq (m : PhotoMetadata) : dSize m =
    48 + (match m.altitude with | some _ => 8 | none => 0) +
      (match m.bearing with | some _ => 16 | none => 0) := by
  unfold dSize calculateGpsDataSize gpsEntries
  rcases m.altitude with _ | a <;> rcases m.bearing with _ | b <;>
    simp [gpsValueSize, apply_ite List.length]

theorem commentOf_length_le (m : PhotoMetadata) : (commentOf m).length ≤ 1008 := by
  unfold commentOf
  dsimp only
  split_ifs with h
  · simp [List.length_take]
  · simp
    omega

/-- The encoder's segment, decomposed into its layout chunks. -/
theorem createExif_decomp (m : PhotoMetadata) :
    createExifSegmentStructured m =
      [73, 73, 42, 0] ++ (u32le 8 ++ (u16le (niCount m) ++
        (concatL (ifd0Recs m) ++ (u32le 0 ++ (u16le (gCount m) ++
          (concatL (writeGpsRecs (gpsEntries m) (dOff m)) ++
           (u32le 0 ++ (concatL ((gpsEntries m).map gpsValueBytes) ++
            commentOf m)))))))) := by
  rw [createExifSegmentStructured, userComment_eq]
  rw [buildExif_decomp (ifd0Entries m) (gpsEntries m) (commentOf m) (ifd0Entries_sorted m)
    (gpsEntries_sorted m) (gpsEntries_ne_nil m) (commentOf_length_big m)
    (ifd0Entries_len12 m) (gpsEntries_no_long m)]
  rfl

/-! ## Looking fields up in the emitted segment -/

/-- Directory-scan step: skip a record whose tag differs. -/
theorem find?_skip {tag t : ℕ} (r : List ℕ) (rest : List (List ℕ))
    (ht : fromLE2 (r.take 2) = t) (hne : t ≠ tag) :
    List.find? (fun x => fromLE2 (x.take 2) == tag) (r :: rest) =
      List.find? (fun x => fromLE2 (x.take 2) == tag) rest := by
  apply List.find?_cons_of_neg
  simp [ht, hne]

/-- Directory-scan step: the first record with the wanted tag is returned. -/
theorem find?_hit {tag : ℕ} (r : List ℕ) (rest : List (List ℕ))
    (ht : fromLE2 (r.take 2) = tag) :
    List.find? (fun x => fromLE2 (x.take 2) == tag) (r :: rest) = some r := by
  apply List.find?_cons_of_pos
  simp [ht]

theorem tag_of_shortIfd (t v : ℕ) (h : t < 65536) :
    fromLE2 ((writeIfdEntry ⟨t, .short v⟩).take 2) = t := by
  rw [writeIfdEntry_short]
  exact mkRec_tag _ _ _ _ h

theorem tag_of_asciiTs (t : ℕ) (ts : ℤ) (h : t < 65536) :
    fromLE2 ((writeIfdEntry ⟨t, .ascii (formatTimestamp ts)⟩).take 2) = t := by
  rw [writeIfdEntry_ascii_long t _ (by have := formatTimestamp_len15 ts; omega)]
  exact mkRec_tag _ _ _ _ h

theorem ifd0Off_encode (m : PhotoMetadata) :
    ifd0Off (createExifSegmentStructured m) = 8 := by
  rw [ifd0Off, createExif_decomp]
  have := readU32at_exact [73, 73, 42, 0]
    (u16le (niCount m) ++
      (concatL (ifd0Recs m) ++ (u32le 0 ++ (u16le (gCount m) ++
        (concatL (writeGpsRecs (gpsEntries m) (dOff m)) ++
         (u32le 0 ++ (concatL ((gpsEntries m).map gpsValueBytes) ++ commentOf m)))))))
    8 (by norm_num)
  simp only [List.length_cons, List.length_nil] at this
  rw [this]
  rfl

theorem readU16_niCount (m : PhotoMetadata) :
    readU16at (createExifSegmentStructured m) 8 = some (niCount m) := by
  have hs : createExifSegmentStructured m =
      ([73, 73, 42, 0] ++ u32le 8) ++
      (u16le (niCount m) ++
        (concatL (ifd0Recs m) ++ (u32le 0 ++ (u16le (gCount m) ++
          (concatL (writeGpsRecs (gpsEntries m) (dOff m)) ++
           (u32le 0 ++ (concatL ((gpsEntries m).map gpsValueBytes) ++ commentOf m))))))) := by
    rw [createExif_decomp]
    simp [List.append_assoc]
  rw [hs]
  have := readU16at_exact ([73, 73, 42, 0] ++ u32le 8)
    (concatL (ifd0Recs m) ++ (u32le 0 ++ (u16le (gCount m) ++
      (concatL (writeGpsRecs (gpsEntries m) (dOff m)) ++
       (u32le 0 ++ (concatL ((gpsEntries m).map gpsValueBytes) ++ commentOf m))))))
    (niCount m) (lt_of_le_of_lt (niCount_le m) (by norm_num))
  simpa using this

/-- IFD0 lookups on the emitted segment are `find?` over `ifd0Recs`. -/
theorem findIfd0_encode (m : PhotoMetadata) (tag : ℕ) :
    findIfd0 (createExifSegmentStructured m) tag =
      ((ifd0Recs m).find? (fun r => fromLE2 (r.take 2) == tag)).map recField := by
  unfold findIfd0 findFieldIn
  rw [ifd0Off_encode, readU16_niCount]
  have hs : createExifSegmentStructured m =
      ([73, 73, 42, 0] ++ u32le 8 ++ u16le (niCount m)) ++
      (concatL (ifd0Recs m) ++
        (u32le 0 ++ (u16le (gCount m) ++
          (concatL (writeGpsRecs (gpsEntries m) (dOff m)) ++
           (u32le 0 ++ (concatL ((gpsEntries m).map gpsValueBytes) ++ commentOf m)))))) := by
    rw [createExif_decomp]
    simp [List.append_assoc]
  rw [hs]
  have hb := findFieldAux_block tag (ifd0Recs m)
    ([73, 73, 42, 0] ++ u32le 8 ++ u16le (niCount m))
    (u32le 0 ++ (u16le (gCount m) ++
      (concatL (writeGpsRecs (gpsEntries m) (dOff m)) ++
       (u32le 0 ++ (concatL ((gpsEntries m).map gpsValueBytes) ++ commentOf m)))))
    (ifd0Recs_len12 m)
  rw [ifd0Recs_count] at hb
  simpa using hb

theorem recField_mkRec (t ty : ℕ) (cb vb : List ℕ) (hcb : cb.length = 4) (hvb : vb.length = 4)
    (hty : ty < 65536) :
    recField (mkRec t ty cb vb) = ⟨ty, fromLE4 cb, vb⟩ := by
  obtain ⟨h1, h2, h3⟩ := mkRec_parse t ty cb vb hcb hvb hty
  unfold recField
  rw [h1, h2, h3]

theorem gOff_le (m : PhotoMetadata) : gOff m ≤ 74 := by
  have := niCount_le m
  unfold gOff
  omega

theorem dOff_le (m : PhotoMetadata) : dOff m ≤ 212 := by
  have h1 := gOff_le m
  have h2 := gCount_le m
  unfold dOff
  omega

theorem dSize_le (m : PhotoMetadata) : dSize m ≤ 72 := by
  rw [dSize_eq]
  rcases m.altitude with _ | a <;> rcases m.bearing with _ | b <;> simp

theorem cOff_le (m : PhotoMetadata) : cOff m ≤ 284 := by
  have h1 := gOff_le m
  have h2 := gCount_le m
  have h3 := dSize_le m
  unfold cOff
  omega

/-- The GPS-IFD pointer entry resolves to the GPS directory offset. -/
theorem find_gpsPtr (m : PhotoMetadata) :
    findIfd0 (createExifSegmentStructured m) 0x8825 = some ⟨4, 1, u32le (gOff m)⟩ := by
  rw [findIfd0_encode]
  unfold ifd0Recs ifd0Entries
  rcases m.orientation_code with _ | o <;>
    simp only [List.map_cons, List.map_nil, List.nil_append, List.cons_append,
      List.append_nil]
  · rw [find?_skip _ _ (tag_of_asciiTs 0x132 _ (by norm_num)) (by norm_num),
      find?_skip _ _ (tag_of_asciiTs 0x9003 _ (by norm_num)) (by norm_num),
      find?_hit _ _ (mkRec_tag _ _ _ _ (by norm_num))]
    rw [Option.map_some', recField_mkRec 0x8825 4 [1, 0, 0, 0] (u32le (gOff m)) rfl rfl
      (by norm_num)]
    norm_num [fromLE4]
  · rw [find?_skip _ _ (tag_of_shortIfd 0x0112 o (by norm_num)) (by norm_num),
      find?_skip _ _ (tag_of_asciiTs 0x132 _ (by norm_num)) (by norm_num),
      find?_skip _ _ (tag_of_asciiTs 0x9003 _ (by norm_num)) (by norm_num),
      find?_hit _ _ (mkRec_tag _ _ _ _ (by norm_num))]
    rw [Option.map_some', recField_mkRec 0x8825 4 [1, 0, 0, 0] (u32le (gOff m)) rfl rfl
      (by norm_num)]
    norm_num [fromLE4]

theorem gpsDirOff_encode (m : PhotoMetadata) :
    gpsDirOff (createExifSegmentStructured m) = some (gOff m) := by
  unfold gpsDirOff
  rw [find_gpsPtr]
  dsimp only
  split_ifs with h
  · rw [fromLE4_u32le _ (lt_of_le_of_lt (gOff_le m) (by norm_num))]
  · exact absurd ⟨rfl, rfl⟩ h

/-- GPS-IFD lookups on the emitted segment are `find?` over the emitted GPS
records. -/
theorem findGps_encode (m : PhotoMetadata) (tag : ℕ) :
    findGps (createExifSegmentStructured m) tag =
      ((writeGpsRecs (gpsEntries m) (dOff m)).find?
        (fun r => fromLE2 (r.take 2) == tag)).map recField := by
  unfold findGps
  rw [gpsDirOff_encode]
  dsimp only
  unfold findFieldIn
  have hplen : ([73, 73, 42, 0] ++ u32le 8 ++ u16le (niCount m) ++
      concatL (ifd0Recs m) ++ u32le 0).length = gOff m := by
    simp only [List.length_append, u16le_length, u32le_length, List.length_cons,
      List.length_nil]
    rw [concatL_length_const _ 12 (ifd0Recs_len12 m), ifd0Recs_count]
    unfold gOff
    omega
  have hs : createExifSegmentStructured m =
      ([73, 73, 42, 0] ++ u32le 8 ++ u16le (niCount m) ++ concatL (ifd0Recs m) ++ u32le 0) ++
      (u16le (gCount m) ++
        (concatL (writeGpsRecs (gpsEntries m) (dOff m)) ++
         (u32le 0 ++ (concatL ((gpsEntries m).map gpsValueBytes) ++ commentOf m)))) := by
    rw [createExif_decomp]
    simp [List.append_assoc]
  have hr16 : readU16at (createExifSegmentStructured m) (gOff m) = some (gCount m) := by
    rw [hs, ← hplen]
    exact readU16at_exact _ _ (gCount m) (lt_of_le_of_lt (gCount_le m) (by norm_num))
  rw [hr16]
  dsimp only
  have hs2 : createExifSegmentStructured m =
      ([73, 73, 42, 0] ++ u32le 8 ++ u16le (niCount m) ++ concatL (ifd0Recs m) ++ u32le 0 ++
        u16le (gCount m)) ++
      (concatL (writeGpsRecs (gpsEntries m) (dOff m)) ++
       (u32le 0 ++ (concatL ((gpsEntries m).map gpsValueBytes) ++ commentOf m))) := by
    rw [createExif_decomp]
    simp [List.append_assoc]
  have hplen2 : ([73, 73, 42, 0] ++ u32le 8 ++ u16le (niCount m) ++ concatL (ifd0Recs m) ++
      u32le 0 ++ u16le (gCount m)).length = gOff m + 2 := by
    rw [List.length_append, hplen, u16le_length]
  have hb := findFieldAux_block tag (writeGpsRecs (gpsEntries m) (dOff m))
    ([73, 73, 42, 0] ++ u32le 8 ++ u16le (niCount m) ++ concatL (ifd0Recs m) ++ u32le 0 ++
      u16le (gCount m))
    (u32le 0 ++ (concatL ((gpsEntries m).map gpsValueBytes) ++ commentOf m))
    (writeGpsRecs_len12 _ _ (gpsEntries_no_long m))
  rw [hplen2, writeGpsRecs_count] at hb
  rw [hs2]
  unfold gCount
  exact hb

theorem writeGpsEntry_ascii_ite (t b1 b2 off : ℕ) (c : Prop) [Decidable c] :
    writeGpsEntry ⟨t, .ascii (if c then [b1] else [b2])⟩ off =
      (mkRec t 2 (u32le 2) [(if c then b1 else b2), 0, 0, 0], off) := by
  split_ifs with h <;> rw [writeGpsEntry_ascii1]

/-- The first five GPS records (version, lat-ref, lat, lon-ref, lon) are
emitted the same way in every configuration; the optional records follow at
data offset `dOff + 48`. -/
theorem gpsRecs_head (m : PhotoMetadata) :
    writeGpsRecs (gpsEntries m) (dOff m) =
      mkRec 0 1 (u32le 4) [2, 3, 0, 0] ::
      mkRec 1 2 (u32le 2) [(if m.latitude ≥ 0 then 78 else 83), 0, 0, 0] ::
      mkRec 2 5 (u32le 3) (u32le (dOff m)) ::
      mkRec 3 2 (u32le 2) [(if m.longitude ≥ 0 then 69 else 87), 0, 0, 0] ::
      mkRec 4 5 (u32le 3) (u32le (dOff m + 24)) ::
      writeGpsRecs
        ((match m.altitude with
          | some a => [⟨0x0005, .short 0⟩, ⟨0x0006, .rational (toU32 (|a| * 1000)) 1000⟩]
          | none => []) ++
         (match m.bearing with
          | some b => [⟨0x0010, .ascii [84]⟩, ⟨0x0011, .rational (toU32 (b * 100)) 100⟩,
                       ⟨0x0017, .ascii [84]⟩, ⟨0x0018, .rational (toU32 (b * 100)) 100⟩]
          | none => [])) (dOff m + 48) := by
  unfold gpsEntries
  simp only [List.cons_append, List.nil_append]
  rw [writeGpsRecs, writeGpsEntry_undef4 0 [2, 3, 0, 0] (dOff m) rfl]
  dsimp only
  rw [writeGpsRecs, writeGpsEntry_ascii_ite 1 78 83 (dOff m) (m.latitude ≥ 0)]
  dsimp only
  rw [writeGpsRecs, writeGpsEntry_rationals 2 _ (dOff m)]
  dsimp only
  rw [writeGpsRecs, writeGpsEntry_ascii_ite 3 69 87 _ (m.longitude ≥ 0)]
  dsimp only
  rw [writeGpsRecs, writeGpsEntry_rationals 4 _ _]
  dsimp only
  norm_num

theorem findGps_latRef (m : PhotoMetadata) :
    findGps (createExifSegmentStructured m) 0x0001 =
      some ⟨2, 2, [(if m.latitude ≥ 0 then 78 else 83), 0, 0, 0]⟩ := by
  rw [findGps_encode, gpsRecs_head]
  rw [find?_skip _ _ (mkRec_tag 0 1 _ _ (by norm_num)) (by norm_num),
    find?_hit _ _ (mkRec_tag 1 2 _ _ (by norm_num))]
  rw [Option.map_some', recField_mkRec 1 2 (u32le 2)
    [(if m.latitude ≥ 0 then 78 else 83), 0, 0, 0] rfl rfl (by norm_num),
    fromLE4_u32le 2 (by norm_num)]

theorem findGps_lat (m : PhotoMetadata) :
    findGps (createExifSegmentStructured m) 0x0002 = some ⟨5, 3, u32le (dOff m)⟩ := by
  rw [findGps_encode, gpsRecs_head]
  rw [find?_skip _ _ (mkRec_tag 0 1 _ _ (by norm_num)) (by norm_num),
    find?_skip _ _ (mkRec_tag 1 2 _ _ (by norm_num)) (by norm_num),
    find?_hit _ _ (mkRec_tag 2 5 _ _ (by norm_num))]
  rw [Option.map_some', recField_mkRec 2 5 (u32le 3) (u32le (dOff m)) rfl rfl (by norm_num),
    fromLE4_u32le 3 (by norm_num)]

theorem findGps_lonRef (m : PhotoMetadata) :
    findGps (createExifSegmentStructured m) 0x0003 =
      some ⟨2, 2, [(if m.longitude ≥ 0 then 69 else 87), 0, 0, 0]⟩ := by
  rw [findGps_encode, gpsRecs_head]
  rw [find?_skip _ _ (mkRec_tag 0 1 _ _ (by norm_num)) (by norm_num),
    find?_skip _ _ (mkRec_tag 1 2 _ _ (by norm_num)) (by norm_num),
    find?_skip _ _ (mkRec_tag 2 5 _ _ (by norm_num)) (by norm_num),
    find?_hit _ _ (mkRec_tag 3 2 _ _ (by norm_num))]
  rw [Option.map_some', recField_mkRec 3 2 (u32le 2)
    [(if m.longitude ≥ 0 then 69 else 87), 0, 0, 0] rfl rfl (by norm_num),
    fromLE4_u32le 2 (by norm_num)]

theorem findGps_lon (m : PhotoMetadata) :
    findGps (createExifSegmentStructured m) 0x0004 = some ⟨5, 3, u32le (dOff m + 24)⟩ := by
  rw [findGps_encode, gpsRecs_head]
  rw [find?_skip _ _ (mkRec_tag 0 1 _ _ (by norm_num)) (by norm_num),
    find?_skip _ _ (mkRec_tag 1 2 _ _ (by norm_num)) (by norm_num),
    find?_skip _ _ (mkRec_tag 2 5 _ _ (by norm_num)) (by norm_num),
    find?_skip _ _ (mkRec_tag 3 2 _ _ (by norm_num)) (by norm_num),
    find?_hit _ _ (mkRec_tag 4 5 _ _ (by norm_num))]
  rw [Option.map_some', recField_mkRec 4 5 (u32le 3) (u32le (dOff m + 24)) rfl rfl
    (by norm_num), fromLE4_u32le 3 (by norm_num)]

theorem findGps_alt (m : PhotoMetadata) (a : ℚ) (ha : m.altitude = some a) :
    findGps (createExifSegmentStructured m) 0x0006 = some ⟨5, 1, u32le (dOff m + 48)⟩ := by
  rw [findGps_encode, gpsRecs_head, ha]
  rw [find?_skip _ _ (mkRec_tag 0 1 _ _ (by norm_num)) (by norm_num),
    find?_skip _ _ (mkRec_tag 1 2 _ _ (by norm_num)) (by norm_num),
    find?_skip _ _ (mkRec_tag 2 5 _ _ (by norm_num)) (by norm_num),
    find?_skip _ _ (mkRec_tag 3 2 _ _ (by norm_num)) (by norm_num),
    find?_skip _ _ (mkRec_tag 4 5 _ _ (by norm_num)) (by norm_num)]
  dsimp only [List.cons_append, List.nil_append]
  rw [writeGpsRecs, writeGpsEntry_short 5 0 _]
  dsimp only
  rw [writeGpsRecs, writeGpsEntry_rational 6 _ 1000 _]
  dsimp only
  rw [find?_skip _ _ (mkRec_tag 5 3 _ _ (by norm_num)) (by norm_num),
    find?_hit _ _ (mkRec_tag 6 5 _ _ (by norm_num))]
  rw [Option.map_some', recField_mkRec 6 5 [1, 0, 0, 0] (u32le (dOff m + 48)) rfl rfl
    (by norm_num)]
  norm_num [fromLE4]

theorem findGps_alt_none (m : PhotoMetadata) (ha : m.altitude = none) :
    findGps (createExifSegmentStructured m) 0x0006 = none := by
  rw [findGps_encode, gpsRecs_head, ha]
  rw [find?_skip _ _ (mkRec_tag 0 1 _ _ (by norm_num)) (by norm_num),
    find?_skip _ _ (mkRec_tag 1 2 _ _ (by norm_num)) (by norm_num),
    find?_skip _ _ (mkRec_tag 2 5 _ _ (by norm_num)) (by norm_num),
    find?_skip _ _ (mkRec_tag 3 2 _ _ (by norm_num)) (by norm_num),
    find?_skip _ _ (mkRec_tag 4 5 _ _ (by norm_num)) (by norm_num)]
  rcases hb : m.bearing with _ | b
  · rfl
  · dsimp only [List.nil_append]
    rw [writeGpsRecs, writeGpsEntry_ascii1 16 84 _]
    dsimp only
    rw [writeGpsRecs, writeGpsEntry_rational 17 _ 100 _]
    dsimp only
    rw [writeGpsRecs, writeGpsEntry_ascii1 23 84 _]
    dsimp only
    rw [writeGpsRecs, writeGpsEntry_rational 24 _ 100 _]
    dsimp only
    rw [find?_skip _ _ (mkRec_tag 16 2 _ _ (by norm_num)) (by norm_num),
      find?_skip _ _ (mkRec_tag 17 5 _ _ (by norm_num)) (by norm_num),
      find?_skip _ _ (mkRec_tag 23 2 _ _ (by norm_num)) (by norm_num),
      find?_skip _ _ (mkRec_tag 24 5 _ _ (by norm_num)) (by norm_num)]
    rfl

theorem findGps_bearing (m : PhotoMetadata) (b : ℚ) (hb : m.bearing = some b) :
    findGps (createExifSegmentStructured m) 0x0011 =
      some ⟨5, 1, u32le (dOff m + 48 +
        (match m.altitude with | some _ => 8 | none => 0))⟩ := by
  rw [findGps_encode, gpsRecs_head, hb]
  rw [find?_skip _ _ (mkRec_tag 0 1 _ _ (by norm_num)) (by norm_num),
    find?_skip _ _ (mkRec_tag 1 2 _ _ (by norm_num)) (by norm_num),
    find?_skip _ _ (mkRec_tag 2 5 _ _ (by norm_num)) (by norm_num),
    find?_skip _ _ (mkRec_tag 3 2 _ _ (by norm_num)) (by norm_num),
    find?_skip _ _ (mkRec_tag 4 5 _ _ (by norm_num)) (by norm_num)]
  rcases ha : m.altitude with _ | a
  · dsimp only [List.nil_append]
    rw [writeGpsRecs, writeGpsEntry_ascii1 16 84 _]
    dsimp only
    rw [writeGpsRecs, writeGpsEntry_rational 17 _ 100 _]
    dsimp only
    rw [find?_skip _ _ (mkRec_tag 16 2 _ _ (by norm_num)) (by norm_num),
      find?_hit _ _ (mkRec_tag 17 5 _ _ (by norm_num))]
    rw [Option.map_some', recField_mkRec 17 5 [1, 0, 0, 0] (u32le (dOff m + 48)) rfl rfl
      (by norm_num)]
    norm_num [fromLE4]
  · dsimp only [List.cons_append, List.nil_append]
    rw [writeGpsRecs, writeGpsEntry_short 5 0 _]
    dsimp only
    rw [writeGpsRecs, writeGpsEntry_rational 6 _ 1000 _]
    dsimp only
    rw [writeGpsRecs, writeGpsEntry_ascii1 16 84 _]
    dsimp only
    rw [writeGpsRecs, writeGpsEntry_rational 17 _ 100 _]
    dsimp only
    rw [find?_skip _ _ (mkRec_tag 5 3 _ _ (by norm_num)) (by norm_num),
      find?_skip _ _ (mkRec_tag 6 5 _ _ (by norm_num)) (by norm_num),
      find?_skip _ _ (mkRec_tag 16 2 _ _ (by norm_num)) (by norm_num),
      find?_hit _ _ (mkRec_tag 17 5 _ _ (by norm_num))]
    rw [Option.map_some', recField_mkRec 17 5 [1, 0, 0, 0] (u32le (dOff m + 48 + 8)) rfl rfl
      (by norm_num)]
    norm_num [fromLE4]

theorem findGps_bearing_none (m : PhotoMetadata) (hb : m.bearing = none) :
    findGps (createExifSegmentStructured m) 0x0011 = none := by
  rw [findGps_encode, gpsRecs_head, hb]
  rw [find?_skip _ _ (mkRec_tag 0 1 _ _ (by norm_num)) (by norm_num),
    find?_skip _ _ (mkRec_tag 1 2 _ _ (by norm_num)) (by norm_num),
    find?_skip _ _ (mkRec_tag 2 5 _ _ (by norm_num)) (by norm_num),
    find?_skip _ _ (mkRec_tag 3 2 _ _ (by norm_num)) (by norm_num),
    find?_skip _ _ (mkRec_tag 4 5 _ _ (by norm_num)) (by norm_num)]
  rcases ha : m.altitude with _ | a
  · rfl
  · dsimp only [List.cons_append, List.nil_append, List.append_nil]
    rw [writeGpsRecs, writeGpsEntry_short 5 0 _]
    dsimp only
    rw [writeGpsRecs, writeGpsEntry_rational 6 _ 1000 _]
    dsimp only
    rw [find?_skip _ _ (mkRec_tag 5 3 _ _ (by norm_num)) (by norm_num),
      find?_skip _ _ (mkRec_tag 6 5 _ _ (by norm_num)) (by norm_num)]
    rfl

theorem findIfd0_orientation (m : PhotoMetadata) (o : ℕ) (ho : m.orientation_code = some o) :
    findIfd0 (createExifSegmentStructured m) 0x0112 = some ⟨3, 1, u16le o ++ [0, 0]⟩ := by
  rw [findIfd0_encode]
  unfold ifd0Recs ifd0Entries
  rw [ho]
  dsimp only [List.map_cons, List.cons_append]
  rw [find?_hit _ _ (tag_of_shortIfd 0x0112 o (by norm_num))]
  rw [Option.map_some', writeIfdEntry_short,
    recField_mkRec 0x0112 3 [1, 0, 0, 0] (u16le o ++ [0, 0]) rfl (by simp) (by norm_num)]
  norm_num [fromLE4]

theorem findIfd0_orientation_none (m : PhotoMetadata) (ho : m.orientation_code = none) :
    findIfd0 (createExifSegmentStructured m) 0x0112 = none := by
  rw [findIfd0_encode]
  unfold ifd0Recs ifd0Entries
  rw [ho]
  dsimp only [List.map_cons, List.map_nil, List.nil_append, List.cons_append]
  rw [find?_skip _ _ (tag_of_asciiTs 0x132 _ (by norm_num)) (by norm_num),
    find?_skip _ _ (tag_of_asciiTs 0x9003 _ (by norm_num)) (by norm_num),
    find?_skip _ _ (mkRec_tag 0x8825 4 _ _ (by norm_num)) (by norm_num),
    find?_skip _ _ (mkRec_tag 0x9286 7 _ _ (by norm_num)) (by norm_num)]
  rfl

theorem findIfd0_uc (m : PhotoMetadata) :
    findIfd0 (createExifSegmentStructured m) 0x9286 =
      some ⟨7, (commentOf m).length, u32le (cOff m)⟩ := by
  rw [findIfd0_encode]
  unfold ifd0Recs ifd0Entries
  rcases m.orientation_code with _ | o <;>
    simp only [List.map_cons, List.map_nil, List.nil_append, List.cons_append,
      List.append_nil]
  · rw [find?_skip _ _ (tag_of_asciiTs 0x132 _ (by norm_num)) (by norm_num),
      find?_skip _ _ (tag_of_asciiTs 0x9003 _ (by norm_num)) (by norm_num),
      find?_skip _ _ (mkRec_tag 0x8825 4 _ _ (by norm_num)) (by norm_num),
      find?_hit _ _ (mkRec_tag 0x9286 7 _ _ (by norm_num))]
    rw [Option.map_some',
      recField_mkRec 0x9286 7 (u32le (commentOf m).length) (u32le (cOff m)) rfl rfl
        (by norm_num),
      fromLE4_u32le _ (lt_of_le_of_lt (commentOf_length_le m) (by norm_num))]
  · rw [find?_skip _ _ (tag_of_shortIfd 0x0112 o (by norm_num)) (by norm_num),
      find?_skip _ _ (tag_of_asciiTs 0x132 _ (by norm_num)) (by norm_num),
      find?_skip _ _ (tag_of_asciiTs 0x9003 _ (by norm_num)) (by norm_num),
      find?_skip _ _ (mkRec_tag 0x8825 4 _ _ (by norm_num)) (by norm_num),
      find?_hit _ _ (mkRec_tag 0x9286 7 _ _ (by norm_num))]
    rw [Option.map_some',
      recField_mkRec 0x9286 7 (u32le (commentOf m).length) (u32le (cOff m)) rfl rfl
        (by norm_num),
      fromLE4_u32le _ (lt_of_le_of_lt (commentOf_length_le m) (by norm_num))]

/-! ## Resolving the out-of-line values in the GPS data area -/

/-- The three latitude rationals as written by `add_gps_data`. -/
def latVs (m : PhotoMetadata) : List (ℕ × ℕ) :=
  [(dmsDeg m.latitude, 1), (dmsMin m.latitude, 1), (dmsSec100 m.latitude, 100)]

def lonVs (m : PhotoMetadata) : List (ℕ × ℕ) :=
  [(dmsDeg m.longitude, 1), (dmsMin m.longitude, 1), (dmsSec100 m.longitude, 100)]

/-- A one-byte ASCII reference value is stored inline: it leaves no bytes in
the GPS data area, whichever hemisphere byte the condition picks. -/
theorem gpsValueBytes_ascii_ite1 (t : ℕ) (c : Prop) [Decidable c] (x y : ℕ) :
    gpsValueBytes ⟨t, .ascii (if c then [x] else [y])⟩ = [] := by
  by_cases h : c <;> simp [gpsValueBytes, h]

theorem gpsData_eq (m : PhotoMetadata) :
    concatL ((gpsEntries m).map gpsValueBytes) =
      ratsBytes (latVs m) ++ (ratsBytes (lonVs m) ++
        ((match m.altitude with
          | some a => ratsBytes [(toU32 (|a| * 1000), 1000)]
          | none => []) ++
         ((match m.bearing with
           | some b => ratsBytes [(toU32 (b * 100), 100)] ++ ratsBytes [(toU32 (b * 100), 100)]
           | none => [])))) := by
  obtain ⟨lat, lon, alt, bear, ts, acc, ls, bs, oc⟩ := m
  rcases alt with _ | a <;> rcases bear with _ | b <;>
    (dsimp only [gpsEntries, List.cons_append, List.nil_append, List.map_cons, List.map_nil,
      concatL]
     rw [gpsValueBytes_ascii_ite1, gpsValueBytes_ascii_ite1]
     rfl)

/-- The bytes laid down before the GPS data area have length `dOff`. -/
theorem preData_length (m : PhotoMetadata) :
    ([73, 73, 42, 0] ++ u32le 8 ++ u16le (niCount m) ++ concatL (ifd0Recs m) ++ u32le 0 ++
      u16le (gCount m) ++ concatL (writeGpsRecs (gpsEntries m) (dOff m)) ++
      u32le 0).length = dOff m := by
  simp only [List.length_append, u16le_length, u32le_length, List.length_cons,
    List.length_nil]
  rw [concatL_length_const _ 12 (ifd0Recs_len12 m), ifd0Recs_count,
    concatL_length_const _ 12 (writeGpsRecs_len12 _ _ (gpsEntries_no_long m)),
    writeGpsRecs_count]
  unfold dOff gOff gCount
  omega

theorem seg_data_split (m : PhotoMetadata) :
    createExifSegmentStructured m =
      ([73, 73, 42, 0] ++ u32le 8 ++ u16le (niCount m) ++ concatL (ifd0Recs m) ++ u32le 0 ++
        u16le (gCount m) ++ concatL (writeGpsRecs (gpsEntries m) (dOff m)) ++ u32le 0) ++
      (concatL ((gpsEntries m).map gpsValueBytes) ++ commentOf m) := by
  rw [createExif_decomp]
  simp [List.append_assoc]

theorem latVs_bounds (m : PhotoMetadata) :
    ∀ p ∈ latVs m, p.1 < 4294967296 ∧ p.2 < 4294967296 := by
  intro p hp
  fin_cases hp <;> exact ⟨toU32_lt _, by norm_num⟩

theorem lonVs_bounds (m : PhotoMetadata) :
    ∀ p ∈ lonVs m, p.1 < 4294967296 ∧ p.2 < 4294967296 := by
  intro p hp
  fin_cases hp <;> exact ⟨toU32_lt _, by norm_num⟩

theorem fieldRats_lat (m : PhotoMetadata) :
    fieldRats (createExifSegmentStructured m) ⟨5, 3, u32le (dOff m)⟩ = some (latVs m) := by
  unfold fieldRats
  dsimp only
  rw [if_pos rfl, fromLE4_u32le _ (lt_of_le_of_lt (dOff_le m) (by norm_num))]
  have hs : createExifSegmentStructured m =
      ([73, 73, 42, 0] ++ u32le 8 ++ u16le (niCount m) ++ concatL (ifd0Recs m) ++ u32le 0 ++
        u16le (gCount m) ++ concatL (writeGpsRecs (gpsEntries m) (dOff m)) ++ u32le 0) ++
      (ratsBytes (latVs m) ++
        (ratsBytes (lonVs m) ++
          ((match m.altitude with
            | some a => ratsBytes [(toU32 (|a| * 1000), 1000)]
            | none => []) ++
           ((match m.bearing with
             | some b => ratsBytes [(toU32 (b * 100), 100)] ++
                 ratsBytes [(toU32 (b * 100), 100)]
             | none => []) ++ commentOf m)))) := by
    rw [seg_data_split, gpsData_eq]
    simp [List.append_assoc]
  have hrd := readRats_exact (latVs m)
    ([73, 73, 42, 0] ++ u32le 8 ++ u16le (niCount m) ++ concatL (ifd0Recs m) ++ u32le 0 ++
      u16le (gCount m) ++ concatL (writeGpsRecs (gpsEntries m) (dOff m)) ++ u32le 0)
    (ratsBytes (lonVs m) ++
      ((match m.altitude with
        | some a => ratsBytes [(toU32 (|a| * 1000), 1000)]
        | none => []) ++
       ((match m.bearing with
         | some b => ratsBytes [(toU32 (b * 100), 100)] ++ ratsBytes [(toU32 (b * 100), 100)]
         | none => []) ++ commentOf m))) (latVs_bounds m)
  rw [preData_length m] at hrd
  rw [hs]
  exact hrd

theorem fieldRats_lon (m : PhotoMetadata) :
    fieldRats (createExifSegmentStructured m) ⟨5, 3, u32le (dOff m + 24)⟩ =
      some (lonVs m) := by
  unfold fieldRats
  dsimp only
  rw [if_pos rfl, fromLE4_u32le (dOff m + 24) (by have := dOff_le m; omega)]
  have hs : createExifSegmentStructured m =
      ([73, 73, 42, 0] ++ u32le 8 ++ u16le (niCount m) ++ concatL (ifd0Recs m) ++ u32le 0 ++
        u16le (gCount m) ++ concatL (writeGpsRecs (gpsEntries m) (dOff m)) ++ u32le 0 ++
        ratsBytes (latVs m)) ++
      (ratsBytes (lonVs m) ++
        ((match m.altitude with
          | some a => ratsBytes [(toU32 (|a| * 1000), 1000)]
          | none => []) ++
         ((match m.bearing with
           | some b => ratsBytes [(toU32 (b * 100), 100)] ++ ratsBytes [(toU32 (b * 100), 100)]
           | none => []) ++ commentOf m))) := by
    rw [seg_data_split, gpsData_eq]
    simp [List.append_assoc]
  have hlen : ([73, 73, 42, 0] ++ u32le 8 ++ u16le (niCount m) ++ concatL (ifd0Recs m) ++
      u32le 0 ++ u16le (gCount m) ++ concatL (writeGpsRecs (gpsEntries m) (dOff m)) ++
      u32le 0 ++ ratsBytes (latVs m)).length = dOff m + 24 := by
    rw [List.length_append, preData_length m, ratsBytes_length]
    norm_num [latVs]
  have hrd := readRats_exact (lonVs m)
    ([73, 73, 42, 0] ++ u32le 8 ++ u16le (niCount m) ++ concatL (ifd0Recs m) ++ u32le 0 ++
      u16le (gCount m) ++ concatL (writeGpsRecs (gpsEntries m) (dOff m)) ++ u32le 0 ++
      ratsBytes (latVs m))
    ((match m.altitude with
      | some a => ratsBytes [(toU32 (|a| * 1000), 1000)]
      | none => []) ++
     ((match m.bearing with
       | some b => ratsBytes [(toU32 (b * 100), 100)] ++ ratsBytes [(toU32 (b * 100), 100)]
       | none => []) ++ commentOf m)) (lonVs_bounds m)
  rw [hlen] at hrd
  rw [hs]
  exact hrd

theorem fieldRats_alt (m : PhotoMetadata) (a : ℚ) (ha : m.altitude = some a) :
    fieldRats (createExifSegmentStructured m) ⟨5, 1, u32le (dOff m + 48)⟩ =
      some [(toU32 (|a| * 1000), 1000)] := by
  unfold fieldRats
  dsimp only
  rw [if_pos rfl, fromLE4_u32le (dOff m + 48) (by have := dOff_le m; omega)]
  have hs : createExifSegmentStructured m =
      ([73, 73, 42, 0] ++ u32le 8 ++ u16le (niCount m) ++ concatL (ifd0Recs m) ++ u32le 0 ++
        u16le (gCount m) ++ concatL (writeGpsRecs (gpsEntries m) (dOff m)) ++ u32le 0 ++
        ratsBytes (latVs m) ++ ratsBytes (lonVs m)) ++
      (ratsBytes [(toU32 (|a| * 1000), 1000)] ++
        ((match m.bearing with
          | some b => ratsBytes [(toU32 (b * 100), 100)] ++ ratsBytes [(toU32 (b * 100), 100)]
          | none => []) ++ commentOf m)) := by
    rw [seg_data_split, gpsData_eq, ha]
    simp [List.append_assoc]
  have hlen : ([73, 73, 42, 0] ++ u32le 8 ++ u16le (niCount m) ++ concatL (ifd0Recs m) ++
      u32le 0 ++ u16le (gCount m) ++ concatL (writeGpsRecs (gpsEntries m) (dOff m)) ++
      u32le 0 ++ ratsBytes (latVs m) ++ ratsBytes (lonVs m)).length = dOff m + 48 := by
    rw [List.length_append, List.length_append, preData_length m, ratsBytes_length,
      ratsBytes_length]
    norm_num [latVs, lonVs]
  have hrd := readRats_exact [(toU32 (|a| * 1000), 1000)]
    ([73, 73, 42, 0] ++ u32le 8 ++ u16le (niCount m) ++ concatL (ifd0Recs m) ++ u32le 0 ++
      u16le (gCount m) ++ concatL (writeGpsRecs (gpsEntries m) (dOff m)) ++ u32le 0 ++
      ratsBytes (latVs m) ++ ratsBytes (lonVs m))
    ((match m.bearing with
      | some b => ratsBytes [(toU32 (b * 100), 100)] ++ ratsBytes [(toU32 (b * 100), 100)]
      | none => []) ++ commentOf m)
    (by intro p hp; fin_cases hp; exact ⟨toU32_lt _, by norm_num⟩)
  rw [hlen] at hrd
  rw [hs]
  exact hrd

theorem fieldRats_bearing (m : PhotoMetadata) (b : ℚ) (hb : m.bearing = some b) :
    fieldRats (createExifSegmentStructured m)
      ⟨5, 1, u32le (dOff m + 48 + (match m.altitude with | some _ => 8 | none => 0))⟩ =
      some [(toU32 (b * 100), 100)] := by
  rcases ha : m.altitude with _ | a
  · unfold fieldRats
    dsimp only
    rw [if_pos rfl, fromLE4_u32le (dOff m + 48 + 0) (by have := dOff_le m; omega)]
    have hs : createExifSegmentStructured m =
        ([73, 73, 42, 0] ++ u32le 8 ++ u16le (niCount m) ++ concatL (ifd0Recs m) ++
          u32le 0 ++ u16le (gCount m) ++
          concatL (writeGpsRecs (gpsEntries m) (dOff m)) ++ u32le 0 ++
          ratsBytes (latVs m) ++ ratsBytes (lonVs m)) ++
        (ratsBytes [(toU32 (b * 100), 100)] ++
          (ratsBytes [(toU32 (b * 100), 100)] ++ commentOf m)) := by
      rw [seg_data_split, gpsData_eq, ha, hb]
      simp [List.append_assoc]
    have hlen : ([73, 73, 42, 0] ++ u32le 8 ++ u16le (niCount m) ++ concatL (ifd0Recs m) ++
        u32le 0 ++ u16le (gCount m) ++ concatL (writeGpsRecs (gpsEntries m) (dOff m)) ++
        u32le 0 ++ ratsBytes (latVs m) ++ ratsBytes (lonVs m)).length = dOff m + 48 + 0 := by
      rw [List.length_append, List.length_append, preData_length m, ratsBytes_length,
        ratsBytes_length]
      norm_num [latVs, lonVs]
    have hrd := readRats_exact [(toU32 (b * 100), 100)]
      ([73, 73, 42, 0] ++ u32le 8 ++ u16le (niCount m) ++ concatL (ifd0Recs m) ++ u32le 0 ++
        u16le (gCount m) ++ concatL (writeGpsRecs (gpsEntries m) (dOff m)) ++ u32le 0 ++
        ratsBytes (latVs m) ++ ratsBytes (lonVs m))
      (ratsBytes [(toU32 (b * 100), 100)] ++ commentOf m)
      (by intro p hp; fin_cases hp; exact ⟨toU32_lt _, by norm_num⟩)
    rw [hlen] at hrd
    rw [hs]
    exact hrd
  · unfold fieldRats
    dsimp only
    rw [if_pos rfl, fromLE4_u32le (dOff m + 48 + 8) (by have := dOff_le m; omega)]
    have hs : createExifSegmentStructured m =
        ([73, 73, 42, 0] ++ u32le 8 ++ u16le (niCount m) ++ concatL (ifd0Recs m) ++
          u32le 0 ++ u16le (gCount m) ++
          concatL (writeGpsRecs (gpsEntries m) (dOff m)) ++ u32le 0 ++
          ratsBytes (latVs m) ++ ratsBytes (lonVs m) ++
          ratsBytes [(toU32 (|a| * 1000), 1000)]) ++
        (ratsBytes [(toU32 (b * 100), 100)] ++
          (ratsBytes [(toU32 (b * 100), 100)] ++ commentOf m)) := by
      rw [seg_data_split, gpsData_eq, ha, hb]
      simp [List.append_assoc]
    have hlen : ([73, 73, 42, 0] ++ u32le 8 ++ u16le (niCount m) ++ concatL (ifd0Recs m) ++
        u32le 0 ++ u16le (gCount m) ++ concatL (writeGpsRecs (gpsEntries m) (dOff m)) ++
        u32le 0 ++ ratsBytes (latVs m) ++ ratsBytes (lonVs m) ++
        ratsBytes [(toU32 (|a| * 1000), 1000)]).length = dOff m + 48 + 8 := by
      rw [List.length_append, List.length_append, List.length_append, preData_length m,
        ratsBytes_length, ratsBytes_length, ratsBytes_length]
      norm_num [latVs, lonVs]
    have hrd := readRats_exact [(toU32 (b * 100), 100)]
      ([73, 73, 42, 0] ++ u32le 8 ++ u16le (niCount m) ++ concatL (ifd0Recs m) ++ u32le 0 ++
        u16le (gCount m) ++ concatL (writeGpsRecs (gpsEntries m) (dOff m)) ++ u32le 0 ++
        ratsBytes (latVs m) ++ ratsBytes (lonVs m) ++ ratsBytes [(toU32 (|a| * 1000), 1000)])
      (ratsBytes [(toU32 (b * 100), 100)] ++ commentOf m)
      (by intro p hp; fin_cases hp; exact ⟨toU32_lt _, by norm_num⟩)
    rw [hlen] at hrd
    rw [hs]
    exact hrd

theorem fieldUndef_uc (m : PhotoMetadata) :
    fieldUndef (createExifSegmentStructured m)
      ⟨7, (commentOf m).length, u32le (cOff m)⟩ = some (commentOf m) := by
  unfold fieldUndef
  dsimp only
  rw [if_pos rfl, if_neg (by have := commentOf_length_big m; omega),
    fromLE4_u32le _ (lt_of_le_of_lt (cOff_le m) (by norm_num))]
  have hs : createExifSegmentStructured m =
      (([73, 73, 42, 0] ++ u32le 8 ++ u16le (niCount m) ++ concatL (ifd0Recs m) ++ u32le 0 ++
        u16le (gCount m) ++ concatL (writeGpsRecs (gpsEntries m) (dOff m)) ++ u32le 0) ++
        concatL ((gpsEntries m).map gpsValueBytes)) ++
      (commentOf m ++ []) := by
    rw [seg_data_split]
    simp [List.append_assoc]
  have hlen : ((([73, 73, 42, 0] ++ u32le 8 ++ u16le (niCount m) ++ concatL (ifd0Recs m) ++
      u32le 0 ++ u16le (gCount m) ++ concatL (writeGpsRecs (gpsEntries m) (dOff m)) ++
      u32le 0) ++ concatL ((gpsEntries m).map gpsValueBytes))).length = cOff m := by
    rw [List.length_append, preData_length m, gpsData_length]
    unfold cOff dOff dSize
    omega
  have hrd := readBytesAt_exact
    (([73, 73, 42, 0] ++ u32le 8 ++ u16le (niCount m) ++ concatL (ifd0Recs m) ++ u32le 0 ++
      u16le (gCount m) ++ concatL (writeGpsRecs (gpsEntries m) (dOff m)) ++ u32le 0) ++
      concatL ((gpsEntries m).map gpsValueBytes))
    (commentOf m) []
  rw [hlen] at hrd
  rw [hs, hrd]

/-! ## Quantization bounds for the DMS encoding -/

theorem toU32_floor (q : ℚ) (h0 : 0 ≤ q) (h1 : ⌊q⌋ ≤ 4294967295) :
    (toU32 q : ℤ) = ⌊q⌋ := by
  unfold toU32 qtrunc
  rw [if_neg (not_lt.2 h0)]
  have hf0 : (0 : ℤ) ≤ ⌊q⌋ := Int.floor_nonneg.2 h0
  rw [min_eq_left h1, max_eq_right hf0]
  exact Int.toNat_of_nonneg hf0

theorem toU32_int (n : ℤ) (h0 : 0 ≤ n) (h1 : n ≤ 4294967295) :
    (toU32 (n : ℚ) : ℤ) = n := by
  rw [toU32_floor _ (by exact_mod_cast h0) (by rw [Int.floor_intCast]; exact h1),
    Int.floor_intCast]

/-- The value the decoder reconstructs from the three encoded DMS rationals
of a coordinate (before the hemisphere sign is applied). -/
def decodedDms (x : ℚ) : ℚ :=
  ratQ (dmsDeg x, 1) + ratQ (dmsMin x, 1) / 60 + ratQ (dmsSec100 x, 100) / 3600

/-- The DMS quantization loses strictly less than `1/360000` of a degree
(and never overshoots) for coordinates of plausible magnitude. -/
theorem decodedDms_close (x : ℚ) (hx : |x| ≤ 400) :
    0 ≤ |x| - decodedDms x ∧ |x| - decodedDms x < 1 / 360000 := by
  set L := |x| with hLdef
  have hL0 : 0 ≤ L := abs_nonneg x
  have hb1 : (⌊L⌋ : ℚ) ≤ L := Int.floor_le L
  have hb2 : L < (⌊L⌋ : ℚ) + 1 := Int.lt_floor_add_one L
  have h400 : ⌊L⌋ ≤ 400 := by
    have h := Int.floor_le_floor hx
    simpa using h
  have hD : ((dmsDeg x : ℕ) : ℚ) = ((⌊L⌋ : ℤ) : ℚ) := by
    unfold dmsDeg
    rw [← hLdef]
    exact_mod_cast toU32_int ⌊L⌋ (Int.floor_nonneg.2 hL0) (by omega)
  set M : ℤ := ⌊(L - (⌊L⌋ : ℚ)) * 60⌋ with hMdef
  have hM0 : (0 : ℤ) ≤ M := Int.floor_nonneg.2 (by nlinarith)
  have hM59 : M < 60 := by
    rw [hMdef, Int.floor_lt]
    push_cast
    nlinarith
  have hMle : (M : ℚ) ≤ (L - (⌊L⌋ : ℚ)) * 60 := by
    rw [hMdef]
    exact Int.floor_le _
  have hMgt : (L - (⌊L⌋ : ℚ)) * 60 < (M : ℚ) + 1 := by
    rw [hMdef]
    exact Int.lt_floor_add_one _
  have hM : ((dmsMin x : ℕ) : ℚ) = (M : ℚ) := by
    unfold dmsMin
    rw [← hLdef, hD, hMdef]
    exact_mod_cast toU32_int _ (by rw [← hMdef]; exact hM0) (by rw [← hMdef]; omega)
  have hu0 : 0 ≤ L - (⌊L⌋ : ℚ) - (M : ℚ) / 60 := by linarith
  have hu1 : L - (⌊L⌋ : ℚ) - (M : ℚ) / 60 < 1 / 60 := by linarith
  set F : ℤ := ⌊(L - (⌊L⌋ : ℚ) - (M : ℚ) / 60) * 360000⌋ with hFdef
  have hq0 : 0 ≤ (L - (⌊L⌋ : ℚ) - (M : ℚ) / 60) * 360000 := by nlinarith
  have hF0 : (0 : ℤ) ≤ F := by
    rw [hFdef]
    exact Int.floor_nonneg.2 hq0
  have hF6000 : F < 6000 := by
    rw [hFdef, Int.floor_lt]
    push_cast
    nlinarith
  have hFle : (F : ℚ) ≤ (L - (⌊L⌋ : ℚ) - (M : ℚ) / 60) * 360000 := by
    rw [hFdef]
    exact Int.floor_le _
  have hFgt : (L - (⌊L⌋ : ℚ) - (M : ℚ) / 60) * 360000 < (F : ℚ) + 1 := by
    rw [hFdef]
    exact Int.lt_floor_add_one _
  have harg : (L - ((dmsDeg x : ℕ) : ℚ) - ((dmsMin x : ℕ) : ℚ) / 60) * 3600 * 100 =
      (L - (⌊L⌋ : ℚ) - (M : ℚ) / 60) * 360000 := by
    rw [hD, hM]
    ring
  have hS : ((dmsSec100 x : ℕ) : ℚ) = (F : ℚ) := by
    unfold dmsSec100
    rw [← hLdef, harg, hFdef]
    exact_mod_cast toU32_floor _ hq0 (by rw [← hFdef]; omega)
  unfold decodedDms ratQ
  dsimp only
  rw [hD, hM, hS]
  push_cast
  constructor <;> linarith

/-! ## Decoder selectors applied to the encoder's segment -/

theorem decodeOrientation_encode (m : PhotoMetadata) (o : ℕ) (ho : m.orientation_code = some o)
    (hlt : o < 65536) :
    decodeOrientation (createExifSegmentStructured m) = some o := by
  unfold decodeOrientation
  rw [findIfd0_orientation m o ho]
  dsimp only
  unfold fieldShort
  rw [if_pos ⟨rfl, rfl⟩]
  have : fromLE2 (u16le o ++ [0, 0]) = o := by
    simp [fromLE2, u16le]
    omega
  rw [this]

theorem decodeOrientation_encode_none (m : PhotoMetadata) (ho : m.orientation_code = none) :
    decodeOrientation (createExifSegmentStructured m) = none := by
  unfold decodeOrientation
  rw [findIfd0_orientation_none m ho]

theorem decodeLatitude_encode (m : PhotoMetadata) :
    decodeLatitude (createExifSegmentStructured m) =
      if m.latitude ≥ 0 then decodedDms m.latitude else -decodedDms m.latitude := by
  unfold decodeLatitude decodeCoord
  rw [findGps_lat, findGps_latRef]
  dsimp only
  rw [fieldRats_lat]
  dsimp only
  rw [if_pos (by norm_num [latVs])]
  by_cases h : m.latitude ≥ 0
  · simp only [if_pos h]
    simp [fieldAscii, asciiFirst, latVs, decodedDms]
  · simp only [if_neg h]
    simp [fieldAscii, asciiFirst, latVs, decodedDms]

theorem decodeLongitude_encode (m : PhotoMetadata) :
    decodeLongitude (createExifSegmentStructured m) =
      if m.longitude ≥ 0 then decodedDms m.longitude else -decodedDms m.longitude := by
  unfold decodeLongitude decodeCoord
  rw [findGps_lon, findGps_lonRef]
  dsimp only
  rw [fieldRats_lon]
  dsimp only
  rw [if_pos (by norm_num [lonVs])]
  by_cases h : m.longitude ≥ 0
  · simp only [if_pos h]
    simp [fieldAscii, asciiFirst, lonVs, decodedDms]
  · simp only [if_neg h]
    simp [fieldAscii, asciiFirst, lonVs, decodedDms]

theorem decodeAltitude_encode (m : PhotoMetadata) (a : ℚ) (ha : m.altitude = some a) :
    decodeAltitude (createExifSegmentStructured m) =
      some ((toU32 (|a| * 1000) : ℚ) / 1000) := by
  unfold decodeAltitude
  rw [findGps_alt m a ha]
  dsimp only
  rw [fieldRats_alt m a ha]
  dsimp only
  norm_num [ratQ]

theorem decodeAltitude_encode_none (m : PhotoMetadata) (ha : m.altitude = none) :
    decodeAltitude (createExifSegmentStructured m) = none := by
  unfold decodeAltitude
  rw [findGps_alt_none m ha]

theorem decodeBearing_encode (m : PhotoMetadata) (b : ℚ) (hb : m.bearing = some b) :
    decodeBearing (createExifSegmentStructured m) =
      some ((toU32 (b * 100) : ℚ) / 100) := by
  unfold decodeBearing
  rw [findGps_bearing m b hb]
  dsimp only
  rw [fieldRats_bearing m b hb]
  dsimp only
  norm_num [ratQ]

theorem decodeBearing_encode_none (m : PhotoMetadata) (hb : m.bearing = none) :
    decodeBearing (createExifSegmentStructured m) = none := by
  unfold decodeBearing
  rw [findGps_bearing_none m hb]

/-! ## The provenance JSON round-trip and the truncation failure -/

theorem hexVal_hexDig (d : ℕ) (hd : d < 16) : hexVal (hexDig d) = some d := by
  unfold hexVal hexDig
  by_cases h : d < 10
  · rw [if_pos h, if_pos (by omega : 48 ≤ 48 + d ∧ 48 + d ≤ 57)]
    congr 1
    omega
  · rw [if_neg h, if_neg (by omega : ¬(48 ≤ 87 + d ∧ 87 + d ≤ 57)),
      if_pos (by omega : 97 ≤ 87 + d ∧ 87 + d ≤ 102)]
    congr 1
    omega

/-- Scanning the serde-escaped bytes of a string in plain mode consumes them
up to the closing quote and reconstructs the original bytes. -/
theorem readStrGo_escBytes (x : List ℕ) : ∀ (acc r : List ℕ),
    readStrGo .plain acc (escBytes x ++ 34 :: r) = some (acc.reverse ++ x, r) := by
  induction x with
  | nil =>
    intro acc r
    simp [escBytes, readStrGo]
  | cons c t ih =>
    intro acc r
    have hassoc : escBytes (c :: t) ++ 34 :: r = escByte c ++ (escBytes t ++ 34 :: r) := by
      simp [escBytes]
    rw [hassoc]
    have hstep : readStrGo .plain acc (escByte c ++ (escBytes t ++ 34 :: r)) =
        readStrGo .plain (c :: acc) (escBytes t ++ 34 :: r) := by
      unfold escByte
      by_cases h34 : c = 34
      · subst h34
        simp [readStrGo, unescSimple]
      rw [if_neg h34]
      by_cases h92 : c = 92
      · subst h92
        simp [readStrGo, unescSimple]
      rw [if_neg h92]
      by_cases h8 : c = 8
      · subst h8
        simp [readStrGo, unescSimple]
      rw [if_neg h8]
      by_cases h9 : c = 9
      · subst h9
        simp [readStrGo, unescSimple]
      rw [if_neg h9]
      by_cases h10 : c = 10
      · subst h10
        simp [readStrGo, unescSimple]
      rw [if_neg h10]
      by_cases h12 : c = 12
      · subst h12
        simp [readStrGo, unescSimple]
      rw [if_neg h12]
      by_cases h13 : c = 13
      · subst h13
        simp [readStrGo, unescSimple]
      rw [if_neg h13]
      by_cases hc : c < 32
      · rw [if_pos hc]
        have h1 : c / 16 < 16 := by omega
        have h2 : c % 16 < 16 := Nat.mod_lt _ (by norm_num)
        have h3 : 16 * (c / 16) + c % 16 = c := Nat.div_add_mod c 16
        have h48 : hexVal 48 = some 0 := by decide
        simp [readStrGo, h48, hexVal_hexDig _ h1, hexVal_hexDig _ h2, h3]
      · rw [if_neg hc]
        simp [readStrGo, h34, h92]
    rw [hstep, ih (c :: acc) r]
    simp

theorem readStr_json (x r : List ℕ) : readStr (escBytes x ++ 34 :: r) = some (x, r) := by
  have h := readStrGo_escBytes x [] r
  simpa [readStr] using h

theorem stripPre_pref (p s : List ℕ) : stripPre p (p ++ s) = some s := by
  induction p with
  | nil => rfl
  | cons c t ih => simp [stripPre, ih]

theorem stripPre_mono (p : List ℕ) : ∀ (u s e : List ℕ), stripPre p u = some s →
    stripPre p (u ++ e) = some (s ++ e) := by
  induction p with
  | nil =>
    intro u s e h
    simp [stripPre] at h ⊢
    rw [h]
  | cons c pt ih =>
    intro u s e h
    cases u with
    | nil => simp [stripPre] at h
    | cons d ut =>
      simp only [stripPre, List.cons_append] at h ⊢
      by_cases hd : d = c
      · rw [if_pos hd] at h ⊢
        exact ih ut s e h
      · rw [if_neg hd] at h
        exact Option.noConfusion h

theorem readStrGo_mono : ∀ (u : List ℕ) (mode : StrMode) (acc x r e : List ℕ),
    readStrGo mode acc u = some (x, r) → readStrGo mode acc (u ++ e) = some (x, r ++ e) := by
  intro u
  induction u with
  | nil =>
    intro mode acc x r e h
    cases mode <;> simp [readStrGo] at h
  | cons c t ih =>
    intro mode acc x r e h
    cases mode with
    | plain =>
      simp only [readStrGo, List.cons_append] at h ⊢
      by_cases h34 : c = 34
      · rw [if_pos h34] at h ⊢
        obtain ⟨rfl, rfl⟩ := Prod.mk.injEq .. ▸ Option.some.inj h
        rfl
      rw [if_neg h34] at h ⊢
      by_cases h92 : c = 92
      · rw [if_pos h92] at h ⊢
        exact ih .esc acc x r e h
      · rw [if_neg h92] at h ⊢
        exact ih .plain (c :: acc) x r e h
    | esc =>
      simp only [readStrGo, List.cons_append] at h ⊢
      by_cases h117 : c = 117
      · rw [if_pos h117] at h ⊢
        exact ih (.hex 4 0) acc x r e h
      rw [if_neg h117] at h ⊢
      rcases hu : unescSimple c with _ | b <;> rw [hu] at h <;> dsimp only at h ⊢
      · exact Option.noConfusion h
      · exact ih .plain (b :: acc) x r e h
    | hex k hacc =>
      simp only [readStrGo, List.cons_append] at h ⊢
      rcases hv : hexVal c with _ | v <;> rw [hv] at h <;> dsimp only at h ⊢
      · exact Option.noConfusion h
      by_cases hk : k ≤ 1
      · rw [if_pos hk] at h ⊢
        exact ih .plain ((16 * hacc + v) :: acc) x r e h
      · rw [if_neg hk] at h ⊢
        exact ih (.hex (k - 1) (16 * hacc + v)) acc x r e h

theorem provParse_jsonProvenance (ls bs : List ℕ) :
    provParse (jsonProvenance ls bs) = some (ls, bs) := by
  unfold provParse
  rw [show jsonProvenance ls bs =
      provLit1 ++ (escBytes ls ++ 34 :: (provLit2 ++ (escBytes bs ++ 34 :: [125]))) from by
    simp [jsonProvenance]]
  rw [stripPre_pref]
  dsimp only
  rw [readStr_json]
  dsimp only
  rw [stripPre_pref]
  dsimp only
  rw [readStr_json]
  dsimp only
  rfl

/-- A proper initial segment of a provenance JSON object never parses: the
parser insists on consuming the closing quote and brace exactly. -/
theorem provParse_proper_pre (ls bs t e : List ℕ)
    (ht : t ++ e = jsonProvenance ls bs) (he : e ≠ []) :
    provParse t = none := by
  rcases hpt : provParse t with _ | ab
  · rfl
  obtain ⟨a, b⟩ := ab
  exfalso
  unfold provParse at hpt
  rcases h1 : stripPre provLit1 t with _ | s1 <;> rw [h1] at hpt <;> dsimp only at hpt
  · exact Option.noConfusion hpt
  rcases h2 : readStr s1 with _ | p2 <;> rw [h2] at hpt <;> dsimp only at hpt
  · exact Option.noConfusion hpt
  obtain ⟨a1, s2⟩ := p2
  rcases h3 : stripPre provLit2 s2 with _ | s3 <;> rw [h3] at hpt <;> dsimp only at hpt
  · exact Option.noConfusion hpt
  rcases h4 : readStr s3 with _ | p4 <;> rw [h4] at hpt <;> dsimp only at hpt
  · exact Option.noConfusion hpt
  obtain ⟨b1, s4⟩ := p4
  by_cases h5 : s4 = [125]
  swap
  · rw [if_neg h5] at hpt
    exact Option.noConfusion hpt
  have H1 := stripPre_mono provLit1 t s1 e h1
  rw [ht] at H1
  have H1c : stripPre provLit1 (jsonProvenance ls bs) =
      some (escBytes ls ++ 34 :: (provLit2 ++ (escBytes bs ++ 34 :: [125]))) := by
    rw [show jsonProvenance ls bs =
        provLit1 ++ (escBytes ls ++ 34 :: (provLit2 ++ (escBytes bs ++ 34 :: [125]))) from by
      simp [jsonProvenance]]
    exact stripPre_pref _ _
  have hs1e : s1 ++ e = escBytes ls ++ 34 :: (provLit2 ++ (escBytes bs ++ 34 :: [125])) :=
    Option.some.inj (H1.symm.trans H1c)
  have H2 := readStrGo_mono s1 .plain [] a1 s2 e h2
  rw [hs1e] at H2
  have H2c : readStrGo .plain [] (escBytes ls ++ 34 :: (provLit2 ++
      (escBytes bs ++ 34 :: [125]))) =
      some (ls, provLit2 ++ (escBytes bs ++ 34 :: [125])) := by
    simpa using readStrGo_escBytes ls [] _
  have hpair2 := Option.some.inj (H2.symm.trans H2c)
  rw [Prod.mk.injEq] at hpair2
  obtain ⟨ha1, hs2e⟩ := hpair2
  have H3 := stripPre_mono provLit2 s2 s3 e h3
  rw [hs2e] at H3
  have H3c : stripPre provLit2 (provLit2 ++ (escBytes bs ++ 34 :: [125])) =
      some (escBytes bs ++ 34 :: [125]) := stripPre_pref _ _
  have hs3e : s3 ++ e = escBytes bs ++ 34 :: [125] :=
    Option.some.inj (H3.symm.trans H3c)
  have H4 := readStrGo_mono s3 .plain [] b1 s4 e h4
  rw [hs3e] at H4
  have H4c : readStrGo .plain [] (escBytes bs ++ 34 :: [125]) = some (bs, [125]) := by
    simpa using readStrGo_escBytes bs [] [125]
  have hpair4 := Option.some.inj (H4.symm.trans H4c)
  rw [Prod.mk.injEq] at hpair4
  obtain ⟨hb1, hs4e⟩ := hpair4
  rw [h5] at hs4e
  simp at hs4e
  exact he hs4e

theorem commentOf_length_gt8 (m : PhotoMetadata) : (commentOf m).length > 8 := by
  unfold commentOf
  dsimp only
  split_ifs with h
  · simp [List.length_take]
    omega
  · rw [List.length_append, jsonProvenance_length]
    simp

/-- Reading back the UserComment reduces source decoding to parsing the
stored (possibly truncated) JSON payload. -/
theorem decodeSources_eval (m : PhotoMetadata) :
    decodeSources (createExifSegmentStructured m) =
      (match provParse ((commentOf m).drop 8) with
       | some (a, b) => (a, b)
       | none => (unknownBytes, unknownBytes)) := by
  unfold decodeSources
  rw [findIfd0_uc]
  dsimp only
  rw [fieldUndef_uc]
  dsimp only
  rw [if_pos (commentOf_length_gt8 m)]

theorem decodeSources_encode (m : PhotoMetadata)
    (hlen : (jsonProvenance m.location_source m.bearing_source).length ≤ 1000) :
    decodeSources (createExifSegmentStructured m) =
      (m.location_source, m.bearing_source) := by
  rw [decodeSources_eval]
  have hc : (commentOf m).drop 8 = jsonProvenance m.location_source m.bearing_source := by
    unfold commentOf
    dsimp only
    rw [if_neg (by omega)]
    rfl
  rw [hc, provParse_jsonProvenance]

theorem decodeSources_trunc (m : PhotoMetadata)
    (hlen : 1000 < (jsonProvenance m.location_source m.bearing_source).length) :
    decodeSources (createExifSegmentStructured m) = (unknownBytes, unknownBytes) := by
  rw [decodeSources_eval]
  have hc : (commentOf m).drop 8 =
      (jsonProvenance m.location_source m.bearing_source).take 1000 := by
    unfold commentOf
    dsimp only
    rw [if_pos hlen]
    rfl
  rw [hc, provParse_proper_pre m.location_source m.bearing_source _
    ((jsonProvenance m.location_source m.bearing_source).drop 1000)
    (List.take_append_drop 1000 _)
    (by
      intro hnil
      have hd : ((jsonProvenance m.location_source m.bearing_source).drop 1000).length = 0 := by
        rw [hnil]
        rfl
      rw [List.length_drop] at hd
      omega)]

/-! ## Error bounds for the decoded values -/

theorem coord_err (x q : ℚ) (hx : |x| ≤ 400)
    (hq : q = if x ≥ 0 then decodedDms x else -decodedDms x) :
    |x - q| < 1 / 360000 := by
  obtain ⟨h0, h1⟩ := decodedDms_close x hx
  by_cases h : x ≥ 0
  · rw [hq, if_pos h]
    rw [abs_of_nonneg h] at h0 h1
    rw [abs_of_nonneg (by linarith)]
    linarith
  · rw [hq, if_neg h]
    rw [abs_of_neg (lt_of_not_le h)] at h0 h1
    have hr : x - -decodedDms x = -(-x - decodedDms x) := by ring
    rw [hr, abs_neg, abs_of_nonneg (by linarith)]
    linarith

theorem toU32_scale_err (v s : ℚ) (h0 : 0 ≤ v) (hs : 0 < s) (hb : v * s < 1000000000) :
    0 ≤ v - (toU32 (v * s) : ℚ) / s ∧ v - (toU32 (v * s) : ℚ) / s < 1 / s := by
  have harg0 : 0 ≤ v * s := by positivity
  have hfl : ⌊v * s⌋ ≤ 4294967295 := by
    have h2 : (⌊v * s⌋ : ℚ) < 1000000000 := lt_of_le_of_lt (Int.floor_le _) hb
    have h3 : ⌊v * s⌋ < 1000000000 := by exact_mod_cast h2
    omega
  have hT : ((toU32 (v * s) : ℕ) : ℚ) = ((⌊v * s⌋ : ℤ) : ℚ) := by
    exact_mod_cast toU32_floor _ harg0 hfl
  have hle : ((⌊v * s⌋ : ℤ) : ℚ) ≤ v * s := Int.floor_le _
  have hgt : v * s < ((⌊v * s⌋ : ℤ) : ℚ) + 1 := Int.lt_floor_add_one _
  rw [hT]
  constructor
  · have hd : ((⌊v * s⌋ : ℤ) : ℚ) / s ≤ v := (div_le_iff₀ hs).2 hle
    linarith
  · have hd : v < (((⌊v * s⌋ : ℤ) : ℚ) + 1) / s := (lt_div_iff₀ hs).2 hgt
    have hsplit : (((⌊v * s⌋ : ℤ) : ℚ) + 1) / s = ((⌊v * s⌋ : ℤ) : ℚ) / s + 1 / s := by
      ring
    linarith [hsplit ▸ hd]

set_option maxHeartbeats 1600000 in
/-- C1 (amended round-trip): for metadata in the documented ranges — with
altitude additionally restricted to be non-negative, since the encoder
stores only `|altitude|` and the decoder never reads GPSAltitudeRef (see the
C1 counterexample and C9) — decoding the encoder's EXIF segment reproduces
latitude and longitude within `1e-4` degrees, bearing within `0.1` degrees
(in fact `1/100`), altitude within `0.001` m (in fact strictly), orientation
exactly, and the provenance strings exactly. -/
theorem C1_roundtrip_amended (m : PhotoMetadata)
    (hlat : |m.latitude| ≤ 90) (hlon : |m.longitude| ≤ 180)
    (hb : ∀ b, m.bearing = some b → 0 ≤ b ∧ b < 360)
    (ha : ∀ a, m.altitude = some a → 0 ≤ a ∧ a ≤ 10000)
    (ho : ∀ o, m.orientation_code = some o → o = 1 ∨ o = 3 ∨ o = 6 ∨ o = 8)
    (hj : (jsonProvenance m.location_source m.bearing_source).length ≤ 1000) :
    |m.latitude - (decodeMetadata (createExifSegmentStructured m)).latitude| < 1 / 10000 ∧
    |m.longitude - (decodeMetadata (createExifSegmentStructured m)).longitude| < 1 / 10000 ∧
    (∀ b, m.bearing = some b →
      ∃ q, (decodeMetadata (createExifSegmentStructured m)).bearing = some q ∧
        0 ≤ b - q ∧ b - q < 1 / 100) ∧
    (m.bearing = none → (decodeMetadata (createExifSegmentStructured m)).bearing = none) ∧
    (∀ a, m.altitude = some a →
      ∃ q, (decodeMetadata (createExifSegmentStructured m)).altitude = some q ∧
        0 ≤ a - q ∧ a - q < 1 / 1000) ∧
    (m.altitude = none → (decodeMetadata (createExifSegmentStructured m)).altitude = none) ∧
    (decodeMetadata (createExifSegmentStructured m)).orientation_code = m.orientation_code ∧
    (decodeMetadata (createExifSegmentStructured m)).location_source = m.location_source ∧
    (decodeMetadata (createExifSegmentStructured m)).bearing_source = m.bearing_source := by
  refine ⟨?_, ?_, ?_, ?_, ?_, ?_, ?_, ?_, ?_⟩
  · show |m.latitude - decodeLatitude (createExifSegmentStructured m)| < 1 / 10000
    have h := coord_err m.latitude _ (le_trans hlat (by norm_num)) (decodeLatitude_encode m)
    linarith
  · show |m.longitude - decodeLongitude (createExifSegmentStructured m)| < 1 / 10000
    have h := coord_err m.longitude _ (le_trans hlon (by norm_num)) (decodeLongitude_encode m)
    linarith
  · intro b hbb
    obtain ⟨hb0, hb360⟩ := hb b hbb
    obtain ⟨e0, e1⟩ := toU32_scale_err b 100 hb0 (by norm_num) (by linarith)
    exact ⟨(toU32 (b * 100) : ℚ) / 100, decodeBearing_encode m b hbb, e0, e1⟩
  · intro hbn
    exact decodeBearing_encode_none m hbn
  · intro a haa
    obtain ⟨ha0, ha10000⟩ := ha a haa
    obtain ⟨e0, e1⟩ := toU32_scale_err a 1000 ha0 (by norm_num) (by linarith)
    have hdec := decodeAltitude_encode m a haa
    rw [abs_of_nonneg ha0] at hdec
    exact ⟨(toU32 (a * 1000) : ℚ) / 1000, hdec, e0, e1⟩
  · intro han
    exact decodeAltitude_encode_none m han
  · show decodeOrientation (createExifSegmentStructured m) = m.orientation_code
    rcases hoc : m.orientation_code with _ | o
    · exact decodeOrientation_encode_none m hoc
    · exact decodeOrientation_encode m o hoc
        (by rcases ho o hoc with h | h | h | h <;> omega)
  · show (decodeSources (createExifSegmentStructured m)).1 = m.location_source
    rw [decodeSources_encode m hj]
  · show (decodeSources (createExifSegmentStructured m)).2 = m.bearing_source
    rw [decodeSources_encode m hj]

theorem C1_roundtrip_amended_witness :
    (|mC3.latitude| ≤ 90 ∧ |mC3.longitude| ≤ 180 ∧
     (∀ b, mC3.bearing = some b → 0 ≤ b ∧ b < 360) ∧
     (∀ a, mC3.altitude = some a → 0 ≤ a ∧ a ≤ 10000) ∧
     (∀ o, mC3.orientation_code = some o → o = 1 ∨ o = 3 ∨ o = 6 ∨ o = 8) ∧
     (jsonProvenance mC3.location_source mC3.bearing_source).length ≤ 1000) ∧
    (|mC3.latitude - (decodeMetadata (createExifSegmentStructured mC3)).latitude| < 1 / 10000 ∧
    |mC3.longitude - (decodeMetadata (createExifSegmentStructured mC3)).longitude| < 1 / 10000 ∧
    (∀ b, mC3.bearing = some b →
      ∃ q, (decodeMetadata (createExifSegmentStructured mC3)).bearing = some q ∧
        0 ≤ b - q ∧ b - q < 1 / 100) ∧
    (mC3.bearing = none → (decodeMetadata (createExifSegmentStructured mC3)).bearing = none) ∧
    (∀ a, mC3.altitude = some a →
      ∃ q, (decodeMetadata (createExifSegmentStructured mC3)).altitude = some q ∧
        0 ≤ a - q ∧ a - q < 1 / 1000) ∧
    (mC3.altitude = none → (decodeMetadata (createExifSegmentStructured mC3)).altitude = none) ∧
    (decodeMetadata (createExifSegmentStructured mC3)).orientation_code =
      mC3.orientation_code ∧
    (decodeMetadata (createExifSegmentStructured mC3)).location_source =
      mC3.location_source ∧
    (decodeMetadata (createExifSegmentStructured mC3)).bearing_source =
      mC3.bearing_source) := by
  have h1 : |mC3.latitude| ≤ 90 := by norm_num [mC3, mkMeta]
  have h2 : |mC3.longitude| ≤ 180 := by norm_num [mC3, mkMeta]
  have h3 : ∀ b, mC3.bearing = some b → 0 ≤ b ∧ b < 360 := by
    intro b hbb
    simp only [mC3, mkMeta, Option.some.injEq] at hbb
    subst hbb
    norm_num
  have h4 : ∀ a, mC3.altitude = some a → 0 ≤ a ∧ a ≤ 10000 := by
    intro a haa
    simp only [mC3, mkMeta, Option.some.injEq] at haa
    subst haa
    norm_num
  have h5 : ∀ o, mC3.orientation_code = some o → o = 1 ∨ o = 3 ∨ o = 6 ∨ o = 8 := by
    intro o hoo
    simp only [mC3, mkMeta, Option.some.injEq] at hoo
    omega
  have h6 : (jsonProvenance mC3.location_source mC3.bearing_source).length ≤ 1000 := by
    decide
  exact ⟨⟨h1, h2, h3, h4, h5, h6⟩, C1_roundtrip_amended mC3 h1 h2 h3 h4 h5 h6⟩

/-- C9: for a negative altitude in the plausible range the encoder emits
GPSAltitudeRef `0` (above sea level) and stores `⌊|a|·1000⌋/1000` as
GPSAltitude, so the decoded altitude is the non-negative `≈ |a|`: the sign
of a negative altitude is not recoverable from the segment. -/
theorem C9_altitude_sign_lost (m : PhotoMetadata) (a : ℚ) (ha : m.altitude = some a)
    (hneg : a < 0) (hrange : -500 ≤ a) :
    (⟨0x0005, .short 0⟩ : ExifEntry) ∈ gpsEntries m ∧
    (⟨0x0006, .rational (toU32 (|a| * 1000)) 1000⟩ : ExifEntry) ∈ gpsEntries m ∧
    (toU32 (|a| * 1000) : ℤ) = ⌊|a| * 1000⌋ ∧
    ∃ q, decodeAltitude (createExifSegmentStructured m) = some q ∧
      0 ≤ q ∧ 0 ≤ |a| - q ∧ |a| - q < 1 / 1000 := by
  have habs : |a| = -a := abs_of_neg hneg
  have hbig : |a| * 1000 < 1000000000 := by
    rw [habs]
    linarith
  refine ⟨by simp [gpsEntries, ha], by simp [gpsEntries, ha], ?_, ?_⟩
  · refine toU32_floor _ (by positivity) ?_
    have h2 : (⌊|a| * 1000⌋ : ℚ) < 1000000000 := lt_of_le_of_lt (Int.floor_le _) hbig
    have h3 : ⌊|a| * 1000⌋ < 1000000000 := by exact_mod_cast h2
    omega
  · obtain ⟨e0, e1⟩ := toU32_scale_err |a| 1000 (abs_nonneg a) (by norm_num) hbig
    exact ⟨(toU32 (|a| * 1000) : ℚ) / 1000, decodeAltitude_encode m a ha,
      by positivity, e0, e1⟩

theorem C9_altitude_sign_lost_witness :
    (mC1neg.altitude = some (-100) ∧ (-100 : ℚ) < 0 ∧ (-500 : ℚ) ≤ -100) ∧
    ((⟨0x0005, .short 0⟩ : ExifEntry) ∈ gpsEntries mC1neg ∧
    (⟨0x0006, .rational (toU32 (|(-100 : ℚ)| * 1000)) 1000⟩ : ExifEntry) ∈ gpsEntries mC1neg ∧
    (toU32 (|(-100 : ℚ)| * 1000) : ℤ) = ⌊|(-100 : ℚ)| * 1000⌋ ∧
    ∃ q, decodeAltitude (createExifSegmentStructured mC1neg) = some q ∧
      0 ≤ q ∧ 0 ≤ |(-100 : ℚ)| - q ∧ |(-100 : ℚ)| - q < 1 / 1000) :=
  ⟨⟨rfl, by norm_num, by norm_num⟩,
    C9_altitude_sign_lost mC1neg (-100) rfl (by norm_num) (by norm_num)⟩

theorem escBytes_rep97 (n : ℕ) : (escBytes (List.replicate n 97)).length = n := by
  induction n with
  | zero => rfl
  | succ k ih => simp [List.replicate_succ, escBytes, escByte, ih]

/-- Metadata whose provenance JSON exceeds the 1000-byte comment limit. -/
def mC10 : PhotoMetadata := mkMeta 10 20 none none 1700000000 5
  (List.replicate 1000 97) manualBytes none

/-- C10: when the serialized provenance JSON exceeds 1000 bytes, the encoder
stores the 8-byte `"ASCII\0\0\0"` header followed by only the first 1000
JSON bytes, and decoding falls back to `"unknown"`/`"unknown"` without an
error: the truncated JSON never parses. -/
theorem C10_provenance_truncation (m : PhotoMetadata)
    (hlen : 1000 < (jsonProvenance m.location_source m.bearing_source).length) :
    commentOf m = [65, 83, 67, 73, 73, 0, 0, 0] ++
      (jsonProvenance m.location_source m.bearing_source).take 1000 ∧
    decodeSources (createExifSegmentStructured m) = (unknownBytes, unknownBytes) := by
  constructor
  · unfold commentOf
    dsimp only
    rw [if_pos hlen]
  · exact decodeSources_trunc m hlen

theorem C10_provenance_truncation_witness :
    1000 < (jsonProvenance mC10.location_source mC10.bearing_source).length ∧
    (commentOf mC10 = [65, 83, 67, 73, 73, 0, 0, 0] ++
      (jsonProvenance mC10.location_source mC10.bearing_source).take 1000 ∧
    decodeSources (createExifSegmentStructured mC10) = (unknownBytes, unknownBytes)) := by
  have hlen : 1000 < (jsonProvenance mC10.location_source mC10.bearing_source).length := by
    show 1000 < (jsonProvenance (List.replicate 1000 97) manualBytes).length
    rw [jsonProvenance_length, escBytes_rep97]
    decide
  exact ⟨hlen, C10_provenance_truncation mC10 hlen⟩

end Hillview
